import Mathlib

/-!
# Enhanced footer controller (`src/js/enhanced-footer.js`)

A shallow embedding of the footer interaction controller.  The browser platform
(the DOM tree, CSS selectors, event listeners, timers, the page load life cycle)
is modelled by explicit state; every method of `EnhancedFooter` and the
module-level code is a function on that state.

* An element is a value of `Node`: its own data and the list of its children.
  Element identity is the number `nid`; `document.createElement` hands out
  `World.nextId`.
* `setTimeout(f, d)` appends a pending `Timer`; a callback is one of the
  closures the source passes to `setTimeout`, listed in `TimerAction`.
* `addEventListener` appends a `Listener`; a handler is one of the closures the
  source passes to `addEventListener`, listed in `Handler`.
* JavaScript numbers that are coordinates are rationals; `none` stands for
  `undefined` / `NaN`.
* The document is the subtree of `head` and the subtree of `body`; the `html`
  element around them carries no class and is left implicit, so `head` and `body`
  have no parent here.
* An event is dispatched at the element that holds the listeners; the closures
  use the element they captured, never `event.target`.
* The clock is virtual: `fireTimer` moves it to the due time of the timer that
  fires.  The values of `Math.random()` are supplied when a timer fires.
* `IntersectionObserver` is taken to exist; reading a property of a null
  `this.footer` is the one exception the methods can throw.
-/

namespace Footer

/-! # Part I: the embedding -/

/-! ## Data model -/

/-- The rectangle `getBoundingClientRect()` reports for an element. -/
structure Rect where
  left : ℚ
  top : ℚ
  width : ℚ
  height : ℚ
deriving DecidableEq

/-- The rectangle of an element that has no layout box. -/
def Rect.zero : Rect := ⟨0, 0, 0, 0⟩

/-- The value of one CSS declaration: literal text, or a number interpolated
before `px` (`none` is `NaN`). -/
inductive CssVal where
  | text (s : String)
  | px (v : Option ℚ)
deriving DecidableEq

/-- The value-level part of an element. -/
structure Data where
  nid : Nat
  tag : String
  className : List String
  attrs : List (String × String)
  style : List (String × CssVal)
  text : String
  rect : Rect
deriving DecidableEq

/-- An element with its subtree. -/
inductive Node where
  | mk (data : Data) (children : List Node)

/-- The data of the element at the root of a subtree. -/
def Node.data : Node → Data
  | .mk d _ => d

/-- The child elements, in document order. -/
def Node.children : Node → List Node
  | .mk _ cs => cs

/-- The document: the subtree of `head` and the subtree of `body`. -/
structure Document where
  head : Node
  body : Node

/-- The two top-level subtrees in document order. -/
def Document.trees (d : Document) : List Node := [d.head, d.body]

/-! ## CSS selectors -/

/-- A simple selector. -/
inductive Simple where
  | cls (c : String)
  | tag (t : String)
  | ident (i : String)
  | attr (a v : String)
deriving DecidableEq

/-- A chain of simple selectors joined by the descendant combinator, outermost first. -/
abbrev Complex := List Simple

/-- A comma-separated selector list. -/
abbrev Selector := List Complex

/-- Whether an element satisfies a simple selector. -/
def Simple.holds (d : Data) : Simple → Bool
  | .cls c => decide (c ∈ d.className)
  | .tag t => decide (d.tag = t)
  | .ident i => decide (d.attrs.lookup "id" = some i)
  | .attr a v => decide (d.attrs.lookup a = some v)

/-- Match the remaining simple selectors (innermost first) against the ancestors
(nearest first). -/
def matchesUp : List Simple → List Data → Bool
  | [], _ => true
  | _ :: _, [] => false
  | s :: ss, a :: anc => if s.holds a then matchesUp ss anc else matchesUp (s :: ss) anc

/-- Whether an element with the given ancestors matches a descendant chain. -/
def Complex.holds (sel : Complex) (anc : List Data) (d : Data) : Bool :=
  match sel.reverse with
  | [] => false
  | s :: ss => s.holds d && matchesUp ss anc

/-- Whether an element with the given ancestors matches a selector list. -/
def Selector.holds (sel : Selector) (anc : List Data) (d : Data) : Bool :=
  sel.any (fun c => c.holds anc d)

/-- The selector `'.enhanced-footer'`. -/
def selEnhancedFooter : Selector := [[.cls "enhanced-footer"]]

/-- The selector `'.footer-section'`. -/
def selFooterSection : Selector := [[.cls "footer-section"]]

/-- The selector `'.social-links a'`. -/
def selSocialLinks : Selector := [[.cls "social-links", .tag "a"]]

/-- The selector `'.footer-links a, .social-links a'`. -/
def selInteractive : Selector := [[.cls "footer-links", .tag "a"], [.cls "social-links", .tag "a"]]

/-- The selector `'i'`. -/
def selIcon : Selector := [[.tag "i"]]

/-- The selector `'.ripple'`. -/
def selRipple : Selector := [[.cls "ripple"]]

/-- The selector `'a'`. -/
def selLinks : Selector := [[.tag "a"]]

/-- The selector `'a, button, [tabindex="0"]'`. -/
def selFocusable : Selector := [[.tag "a"], [.tag "button"], [.attr "tabindex" "0"]]

/-! ## Tree traversal and mutation -/

mutual
/-- The elements of a subtree that match `sel`, in document order. -/
def Node.selectAll (sel : Selector) (anc : List Data) : Node → List Nat
  | .mk d cs => (if sel.holds anc d then [d.nid] else []) ++ Node.selectAllList sel (d :: anc) cs
/-- The elements of a list of sibling subtrees that match `sel`, in document order. -/
def Node.selectAllList (sel : Selector) (anc : List Data) : List Node → List Nat
  | [] => []
  | c :: cs => Node.selectAll sel anc c ++ Node.selectAllList sel anc cs
end

mutual
/-- The first element (document order) with the given `nid`, with its ancestors. -/
def Node.locate (el : Nat) (anc : List Data) : Node → Option (List Data × Node)
  | .mk d cs => if d.nid = el then some (anc, .mk d cs) else Node.locateList el (d :: anc) cs
/-- The same search through a list of sibling subtrees. -/
def Node.locateList (el : Nat) (anc : List Data) : List Node → Option (List Data × Node)
  | [] => none
  | c :: cs =>
    match Node.locate el anc c with
    | some r => some r
    | none => Node.locateList el anc cs
end

mutual
/-- Rewrite the data of the element `el`; the identity of an element is kept. -/
def Node.update (el : Nat) (f : Data → Data) : Node → Node
  | .mk d cs => .mk (if d.nid = el then { f d with nid := d.nid } else d) (Node.updateList el f cs)
/-- The same rewrite through a list of sibling subtrees. -/
def Node.updateList (el : Nat) (f : Data → Data) : List Node → List Node
  | [] => []
  | c :: cs => Node.update el f c :: Node.updateList el f cs
end

mutual
/-- Append `child` as the last child of the element `parent`. -/
def Node.appendChild (parent : Nat) (child : Node) : Node → Node
  | .mk d cs =>
    .mk d (Node.appendChildList parent child cs ++ (if d.nid = parent then [child] else []))
/-- The same through a list of sibling subtrees. -/
def Node.appendChildList (parent : Nat) (child : Node) : List Node → List Node
  | [] => []
  | c :: cs => Node.appendChild parent child c :: Node.appendChildList parent child cs
end

mutual
/-- Remove the element `el` from the child list of its parent. -/
def Node.detach (el : Nat) : Node → Node
  | .mk d cs => .mk d (Node.detachList el cs)
/-- Remove the element `el` from a child list, and from the child lists below. -/
def Node.detachList (el : Nat) : List Node → List Node
  | [] => []
  | c :: cs =>
    if c.data.nid = el then Node.detachList el cs
    else Node.detach el c :: Node.detachList el cs
end

/-- The method `document.querySelectorAll(sel)`. -/
def Document.querySelectorAll (d : Document) (sel : Selector) : List Nat :=
  Node.selectAllList sel [] d.trees

/-- The method `document.querySelector(sel)`. -/
def Document.querySelector (d : Document) (sel : Selector) : Option Nat :=
  (d.querySelectorAll sel).head?

/-- The method `document.getElementById(i)`. -/
def Document.getElementById (d : Document) (i : String) : Option Nat :=
  d.querySelector [[.ident i]]

/-- The element `el` of the document, with its ancestors (nearest first). -/
def Document.locate (d : Document) (el : Nat) : Option (List Data × Node) :=
  Node.locateList el [] d.trees

/-- The method `el.querySelectorAll(sel)`: the descendants of `el` that match. -/
def Document.querySelectorAllFrom (d : Document) (el : Nat) (sel : Selector) : List Nat :=
  match d.locate el with
  | some (anc, n) => Node.selectAllList sel (n.data :: anc) n.children
  | none => []

/-- The method `el.querySelector(sel)`. -/
def Document.querySelectorFrom (d : Document) (el : Nat) (sel : Selector) : Option Nat :=
  (d.querySelectorAllFrom el sel).head?

/-- The method `el.getAttribute(name)`; `none` is `null`. -/
def Document.getAttribute (d : Document) (el : Nat) (name : String) : Option String :=
  (d.locate el).bind (fun r => r.2.data.attrs.lookup name)

/-- The property `el.parentNode`; `none` is `null`. -/
def Document.parentNode (d : Document) (el : Nat) : Option Nat :=
  (d.locate el).bind (fun r => r.1.head?.map (fun a => a.nid))

/-- The child elements of `el`. -/
def Document.childrenOf (d : Document) (el : Nat) : List Node :=
  match d.locate el with
  | some (_, n) => n.children
  | none => []

/-- The method `el.getBoundingClientRect()`. -/
def Document.getBoundingClientRect (d : Document) (el : Nat) : Rect :=
  match d.locate el with
  | some (_, n) => n.data.rect
  | none => Rect.zero

/-- Rewrite the data of element `el`. -/
def Document.update (d : Document) (el : Nat) (f : Data → Data) : Document :=
  ⟨Node.update el f d.head, Node.update el f d.body⟩

/-- The method `parent.appendChild(child)`. -/
def Document.appendChild (d : Document) (parent : Nat) (child : Node) : Document :=
  ⟨Node.appendChild parent child d.head, Node.appendChild parent child d.body⟩

/-- The call `el.parentNode.removeChild(el)`. -/
def Document.detach (d : Document) (el : Nat) : Document :=
  ⟨Node.detach el d.head, Node.detach el d.body⟩

/-- The call `document.head.appendChild(child)`. -/
def Document.appendToHead (d : Document) (child : Node) : Document :=
  ⟨.mk d.head.data (d.head.children ++ [child]), d.body⟩

/-- Assign one property of an inline style. -/
def setProp (name : String) (v : CssVal) : List (String × CssVal) → List (String × CssVal)
  | [] => [(name, v)]
  | (n, x) :: rest => if n = name then (n, v) :: rest else (n, x) :: setProp name v rest

/-- The assignment `el.style[name] = v`. -/
def Document.setStyle (d : Document) (el : Nat) (name : String) (v : CssVal) : Document :=
  d.update el (fun x => { x with style := setProp name v x.style })

/-- The assignment `el.style[name] = ''`, which drops the declaration. -/
def Document.clearStyle (d : Document) (el : Nat) (name : String) : Document :=
  d.update el (fun x => { x with style := x.style.filter (fun p => p.1 ≠ name) })

/-- The method `el.setAttribute(name, value)`. -/
def setAttr (name value : String) : List (String × String) → List (String × String)
  | [] => [(name, value)]
  | (n, x) :: rest => if n = name then (n, value) :: rest else (n, x) :: setAttr name value rest

/-- The method `el.setAttribute(name, value)` on the document. -/
def Document.setAttribute (d : Document) (el : Nat) (name value : String) : Document :=
  d.update el (fun x => { x with attrs := setAttr name value x.attrs })

/-- The method `el.classList.add(c)`. -/
def Document.classListAdd (d : Document) (el : Nat) (c : String) : Document :=
  d.update el (fun x => { x with className := if c ∈ x.className then x.className else x.className ++ [c] })

/-- JavaScript truthiness of an attribute value: neither `null` nor the empty string. -/
def truthy : Option String → Bool
  | none => false
  | some s => decide (s ≠ "")

/-! ## Events, listeners, timers -/

/-- The fields of an event object the handlers read, and its `defaultPrevented` flag.
A keyboard event has no `clientX` / `clientY`; a mouse event has no `key`. -/
structure DomEvent where
  clientX : Option ℚ
  clientY : Option ℚ
  key : Option String
  defaultPrevented : Bool
deriving DecidableEq

/-- A mouse event at the given client coordinates. -/
def DomEvent.mouse (x y : ℚ) : DomEvent := ⟨some x, some y, none, false⟩

/-- A keyboard event for the given key. -/
def DomEvent.keyboard (k : String) : DomEvent := ⟨none, none, some k, false⟩

/-- The event types the controller listens to. -/
inductive EvType where
  | mouseenter | mouseleave | click | focus | blur | keydown
deriving DecidableEq

/-- The closures the controller passes to `addEventListener`, each with the
variables it captures. -/
inductive Handler where
  | socialEnter (link : Nat)
  | socialLeave (link : Nat)
  | socialClick (link : Nat)
  | rippleClick (element : Nat)
  | tooltipShow (tooltip : Nat)
  | tooltipHide (tooltip : Nat)
  | focusOutline (element : Nat)
  | blurOutline (element : Nat)
  | keyActivate (link : Nat)
deriving DecidableEq

/-- One registration made by `element.addEventListener(type, handler)`. -/
structure Listener where
  target : Nat
  type : EvType
  handler : Handler
deriving DecidableEq

/-- The closures the controller passes to `setTimeout`. -/
inductive TimerAction where
  | entrance (section_ : Nat)
  | spawnParticle (element : Nat)
  | removeNode (node : Nat)
  | clickLink (link : Nat)
deriving DecidableEq

/-- A pending timer: the delay it was set with, the clock value at which it is
due, and its callback. -/
structure Timer where
  delay : Nat
  due : Nat
  action : TimerAction
deriving DecidableEq

/-- The phases of the page load; `document.readyState` is a function of the phase. -/
inductive Phase where
  | parsing
  | parsed
  | domReady
  | loaded
deriving DecidableEq

/-- The values of `document.readyState`. -/
inductive ReadyState where
  | loading | interactive | complete
deriving DecidableEq

/-- The value of `document.readyState` in each phase: `DOMContentLoaded` is
dispatched on the step from `parsed` to `domReady`. -/
def Phase.readyState : Phase → ReadyState
  | .parsing => .loading
  | .parsed => .interactive
  | .domReady => .interactive
  | .loaded => .complete

/-- The two closures the script passes to
`document.addEventListener('DOMContentLoaded', …)`. -/
inductive DocHandler where
  | moduleInit
  | controllerInit
deriving DecidableEq

/-- An exception thrown by the script. -/
inductive JsError where
  | typeError (msg : String)
deriving DecidableEq

/-- The state of the page and of the `EnhancedFooter` instance (`footer`,
`isVisible`, `animationDelay`). -/
structure World where
  doc : Document
  nextId : Nat
  phase : Phase
  docListeners : List DocHandler
  listeners : List Listener
  timers : List Timer
  now : Nat
  observed : List Nat
  footer : Option Nat
  isVisible : Bool
  animationDelay : Nat

/-- A page before the script runs: nothing registered, nothing pending. -/
def World.page (doc : Document) (nextId : Nat) (phase : Phase) : World :=
  { doc := doc, nextId := nextId, phase := phase, docListeners := [], listeners := [],
    timers := [], now := 0, observed := [], footer := none, isVisible := false,
    animationDelay := 0 }

/-- The call `setTimeout(action, delay)`. -/
def setTimeout (action : TimerAction) (delay : Nat) (w : World) : World :=
  { w with timers := w.timers ++ [⟨delay, w.now + delay, action⟩] }

/-- The call `target.addEventListener(type, handler)`. -/
def addEventListener (target : Nat) (type : EvType) (handler : Handler) (w : World) : World :=
  { w with listeners := w.listeners ++ [⟨target, type, handler⟩] }

/-! ## The controller -/

/-- Method `triggerEntranceAnimation`: one timer per `.footer-section`, the one of
index `i` with delay `i * animationDelay`. -/
def triggerEntranceAnimation (w : World) : Except JsError World :=
  match w.footer with
  | none => .error (.typeError "this.footer is null")
  | some f =>
    let sections := w.doc.querySelectorAllFrom f selFooterSection
    .ok (sections.enum.foldl
      (fun w p => setTimeout (.entrance p.2) (p.1 * w.animationDelay) w) w)

/-- The callback given to `IntersectionObserver`; an entry is its `isIntersecting`. -/
def onIntersect (entries : List Bool) (w : World) : Except JsError World :=
  entries.foldlM (fun w isIntersecting =>
    if isIntersecting && !w.isVisible then
      (triggerEntranceAnimation w).map (fun w => { w with isVisible := true })
    else .ok w) w

/-- Method `setupIntersectionObserver`. -/
def setupIntersectionObserver (w : World) : Except JsError World :=
  match w.footer with
  | none => .error (.typeError "observe: parameter 1 is not of type Element")
  | some f => .ok { w with observed := w.observed ++ [f] }

/-- Method `setupSocialIconAnimations`. -/
def setupSocialIconAnimations (w : World) : Except JsError World :=
  match w.footer with
  | none => .error (.typeError "this.footer is null")
  | some f =>
    let socialLinks := w.doc.querySelectorAllFrom f selSocialLinks
    .ok (socialLinks.foldl (fun w link =>
      addEventListener link .click (.socialClick link)
        (addEventListener link .mouseleave (.socialLeave link)
          (addEventListener link .mouseenter (.socialEnter link) w))) w)

/-- Method `createFloatingIcons`. -/
def createFloatingIcons (element : Nat) (w : World) : World :=
  if (w.doc.querySelectorFrom element selIcon).isSome then
    (List.range 3).foldl (fun w i => setTimeout (.spawnParticle element) (i * 50) w) w
  else w

/-- The inline style of a particle; `r1`, `r2` are the two values of `Math.random()`. -/
def particleCss (r1 r2 : ℚ) : List (String × CssVal) :=
  [("position", .text "absolute"), ("width", .text "4px"), ("height", .text "4px"),
   ("background", .text "rgba(255, 255, 255, 0.6)"), ("border-radius", .text "50%"),
   ("pointer-events", .text "none"), ("z-index", .text "1000"),
   ("left", .px (some (r1 * 20 + 15))), ("top", .px (some (r2 * 20 + 15))),
   ("animation", .text "floatUp 1s ease-out forwards")]

/-- Method `createFloatingParticle`. -/
def createFloatingParticle (parent : Nat) (r1 r2 : ℚ) (w : World) : World :=
  let particle : Data :=
    { nid := w.nextId, tag := "div", className := ["floating-particle"], attrs := [],
      style := particleCss r1 r2, text := "", rect := Rect.zero }
  let w := { w with nextId := w.nextId + 1 }
  let w := { w with doc := w.doc.setStyle parent "position" (.text "relative") }
  let w := { w with doc := w.doc.appendChild parent (.mk particle []) }
  setTimeout (.removeNode particle.nid) 1000 w

/-- The cleanup closure of `createFloatingParticle` and of `createClickRipple`:
`if (x.parentNode) x.parentNode.removeChild(x)`. -/
def removeIfAttached (node : Nat) (w : World) : World :=
  if (w.doc.parentNode node).isSome then { w with doc := w.doc.detach node } else w

/-- Method `addHoverGlow`. -/
def addHoverGlow (element : Nat) (w : World) : World :=
  let d := w.doc.setStyle element "box-shadow"
    (.text "0 0 20px rgba(59, 130, 246, 0.5), 0 8px 25px rgba(0, 0, 0, 0.3)")
  { w with doc := d.setStyle element "filter" (.text "brightness(1.1)") }

/-- Method `removeHoverGlow`. -/
def removeHoverGlow (element : Nat) (w : World) : World :=
  { w with doc := (w.doc.clearStyle element "box-shadow").clearStyle element "filter" }

/-- The inline style of a ripple of the given size and offsets. -/
def rippleCss (size : ℚ) (x y : Option ℚ) : List (String × CssVal) :=
  [("position", .text "absolute"), ("width", .px (some size)), ("height", .px (some size)),
   ("left", .px x), ("top", .px y),
   ("background", .text "radial-gradient(circle, rgba(255, 255, 255, 0.6) 0%, transparent 70%)"),
   ("border-radius", .text "50%"), ("pointer-events", .text "none"),
   ("animation", .text "ripple 0.6s ease-out"), ("z-index", .text "1000")]

/-- The constant `size` of `createClickRipple`. -/
def rippleSize (rect : Rect) : ℚ := max rect.width rect.height

/-- The constant `x` of `createClickRipple`. -/
def rippleX (event : DomEvent) (rect : Rect) : Option ℚ :=
  event.clientX.map (fun cx => cx - rect.left - rippleSize rect / 2)

/-- The constant `y` of `createClickRipple`. -/
def rippleY (event : DomEvent) (rect : Rect) : Option ℚ :=
  event.clientY.map (fun cy => cy - rect.top - rippleSize rect / 2)

/-- The element `createClickRipple` builds, before it is appended. -/
def rippleData (nid : Nat) (event : DomEvent) (rect : Rect) : Data :=
  { nid := nid, tag := "div", className := [], attrs := [],
    style := rippleCss (rippleSize rect) (rippleX event rect) (rippleY event rect),
    text := "", rect := Rect.zero }

/-- Method `createClickRipple`. -/
def createClickRipple (event : DomEvent) (element : Nat) (w : World) : World :=
  let rect := w.doc.getBoundingClientRect element
  let ripple := rippleData w.nextId event rect
  let w := { w with nextId := w.nextId + 1 }
  let w := { w with doc := w.doc.setStyle element "position" (.text "relative") }
  let w := { w with doc := w.doc.setStyle element "overflow" (.text "hidden") }
  let w := { w with doc := w.doc.appendChild element (.mk ripple []) }
  setTimeout (.removeNode ripple.nid) 600 w

/-- Method `createRippleEffect`. -/
def createRippleEffect (event : DomEvent) (element : Nat) (w : World) : World :=
  if (w.doc.querySelectorFrom element selRipple).isNone then createClickRipple event element w
  else w

/-- Method `setupRippleEffects`. -/
def setupRippleEffects (w : World) : Except JsError World :=
  match w.footer with
  | none => .error (.typeError "this.footer is null")
  | some f =>
    let interactiveElements := w.doc.querySelectorAllFrom f selInteractive
    .ok (interactiveElements.foldl (fun w element =>
      addEventListener element .click (.rippleClick element) w) w)

/-- The inline style of a tooltip. -/
def tooltipCss : List (String × CssVal) :=
  [("position", .text "absolute"), ("bottom", .text "120%"), ("left", .text "50%"),
   ("transform", .text "translateX(-50%)"), ("background", .text "rgba(0, 0, 0, 0.8)"),
   ("color", .text "white"), ("padding", .text "6px 12px"), ("border-radius", .text "6px"),
   ("font-size", .text "12px"), ("white-space", .text "nowrap"), ("opacity", .text "0"),
   ("pointer-events", .text "none"), ("transition", .text "opacity 0.3s ease"),
   ("z-index", .text "1000")]

/-- Method `createTooltip`. -/
def createTooltip (element : Nat) (text : String) (w : World) : World :=
  let tooltip : Data :=
    { nid := w.nextId, tag := "div", className := ["custom-tooltip"], attrs := [],
      style := tooltipCss, text := text, rect := Rect.zero }
  let w := { w with nextId := w.nextId + 1 }
  let w := { w with doc := w.doc.setStyle element "position" (.text "relative") }
  let w := { w with doc := w.doc.appendChild element (.mk tooltip []) }
  let w := addEventListener element .mouseenter (.tooltipShow tooltip.nid) w
  addEventListener element .mouseleave (.tooltipHide tooltip.nid) w

/-- Method `setupTooltips`. -/
def setupTooltips (w : World) : Except JsError World :=
  match w.footer with
  | none => .error (.typeError "this.footer is null")
  | some f =>
    let socialLinks := w.doc.querySelectorAllFrom f selSocialLinks
    .ok (socialLinks.foldl (fun w link =>
      match w.doc.getAttribute link "title" with
      | some title => if truthy (some title) then createTooltip link title w else w
      | none => w) w)

/-- The first loop of `setupAccessibility` for one link. -/
def addAriaLabel (link : Nat) (w : World) : World :=
  match w.doc.getAttribute link "title" with
  | some title =>
    if truthy (some title) && !truthy (w.doc.getAttribute link "aria-label") then
      { w with doc := w.doc.setAttribute link "aria-label" title }
    else w
  | none => w

/-- Method `setupFocusManagement`. -/
def setupFocusManagement (w : World) : Except JsError World :=
  match w.footer with
  | none => .error (.typeError "this.footer is null")
  | some f =>
    let focusableElements := w.doc.querySelectorAllFrom f selFocusable
    .ok (focusableElements.foldl (fun w element =>
      addEventListener element .blur (.blurOutline element)
        (addEventListener element .focus (.focusOutline element) w)) w)

/-- Method `setupKeyboardNavigation`. -/
def setupKeyboardNavigation (w : World) : Except JsError World :=
  match w.footer with
  | none => .error (.typeError "this.footer is null")
  | some f =>
    let links := w.doc.querySelectorAllFrom f selLinks
    .ok (links.foldl (fun w link => addEventListener link .keydown (.keyActivate link) w) w)

/-- The first loop of `setupAccessibility`: the ARIA labels of the social links. -/
def addAriaLabels (w : World) : Except JsError World :=
  match w.footer with
  | none => .error (.typeError "this.footer is null")
  | some f =>
    let socialLinks := w.doc.querySelectorAllFrom f selSocialLinks
    .ok (socialLinks.foldl (fun w link => addAriaLabel link w) w)

/-- Method `setupAccessibility`. -/
def setupAccessibility (w : World) : Except JsError World := do
  let w ← addAriaLabels w
  let w ← setupFocusManagement w
  setupKeyboardNavigation w

/-- The closure `init` registers for `DOMContentLoaded` (source lines 14 to 23). -/
def onDOMContentLoaded (w : World) : Except JsError World :=
  let w := { w with footer := w.doc.querySelector selEnhancedFooter }
  if w.footer.isSome then do
    let w ← setupIntersectionObserver w
    let w ← setupSocialIconAnimations w
    let w ← setupRippleEffects w
    let w ← setupTooltips w
    setupAccessibility w
  else .ok w

/-- Method `init`. -/
def init (w : World) : World :=
  { w with docListeners := w.docListeners ++ [.controllerInit] }

/-- The expression `new EnhancedFooter()`: the constructor. -/
def construct (w : World) : World :=
  init { w with footer := none, isVisible := false, animationDelay := 100 }

/-! ## Event handlers and timer callbacks -/

/-- The keydown closure of `setupKeyboardNavigation`. -/
def onKeydown (link : Nat) (e : DomEvent) (w : World) : DomEvent × World :=
  if e.key = some "Enter" ∨ e.key = some " " then
    let e := { e with defaultPrevented := true }
    let w := createClickRipple e link w
    (e, setTimeout (.clickLink link) 100 w)
  else (e, w)

/-- Run one registered closure on an event. -/
def Handler.run : Handler → DomEvent → World → DomEvent × World
  | .socialEnter link, e, w => (e, addHoverGlow link (createFloatingIcons link w))
  | .socialLeave link, e, w => (e, removeHoverGlow link w)
  | .socialClick link, e, w => (e, createClickRipple e link w)
  | .rippleClick element, e, w => (e, createRippleEffect e element w)
  | .tooltipShow tooltip, e, w =>
    (e, { w with doc := w.doc.setStyle tooltip "opacity" (.text "1") })
  | .tooltipHide tooltip, e, w =>
    (e, { w with doc := w.doc.setStyle tooltip "opacity" (.text "0") })
  | .focusOutline element, e, w =>
    let d := w.doc.setStyle element "outline" (.text "2px solid #60a5fa")
    (e, { w with doc := d.setStyle element "outline-offset" (.text "2px") })
  | .blurOutline element, e, w =>
    (e, { w with doc := (w.doc.clearStyle element "outline").clearStyle element "outline-offset" })
  | .keyActivate link, e, w => onKeydown link e w

/-- Dispatch an event at `target`: the listeners registered on it for that type
run in registration order. -/
def dispatchEvent (target : Nat) (type : EvType) (e : DomEvent) (w : World) : DomEvent × World :=
  (w.listeners.filter (fun l => decide (l.target = target ∧ l.type = type))).foldl
    (fun s l => l.handler.run s.1 s.2) (e, w)

/-- Run a timer callback; `r1`, `r2` are the values `Math.random()` returns to it. -/
def TimerAction.run (r1 r2 : ℚ) : TimerAction → World → World
  | .entrance s, w =>
    let d := w.doc.setStyle s "animation-play-state" (.text "running")
    { w with doc := d.classListAdd s "animate-in" }
  | .spawnParticle element, w => createFloatingParticle element r1 r2 w
  | .removeNode node, w => removeIfAttached node w
  | .clickLink link, w => (dispatchEvent link .click (DomEvent.mouse 0 0) w).2

/-- The pending timer of index `i` fires: it leaves the pending list, the clock
reaches its due time, and its callback runs. -/
def fireTimer (i : Nat) (r1 r2 : ℚ) (w : World) : World :=
  match w.timers.get? i with
  | none => w
  | some t => t.action.run r1 r2 { w with timers := w.timers.eraseIdx i, now := max w.now t.due }

/-! ## Module-level code -/

/-- The text of the injected style element. -/
def keyframesText : String :=
  "@keyframes floatUp \x7b 0% \x7b opacity: 1; transform: translateY(0) scale(1); \x7d 100% \x7b opacity: 0; transform: translateY(-30px) scale(0.5); \x7d \x7d @keyframes ripple \x7b 0% \x7b opacity: 1; transform: scale(0); \x7d 100% \x7b opacity: 0; transform: scale(2); \x7d \x7d"

/-- The function `addFooterAnimationCSS`. -/
def addFooterAnimationCSS (w : World) : World :=
  if (w.doc.getElementById "enhanced-footer-animations").isNone then
    let style : Data :=
      { nid := w.nextId, tag := "style", className := [],
        attrs := [("id", "enhanced-footer-animations")], style := [], text := keyframesText,
        rect := Rect.zero }
    let w := { w with nextId := w.nextId + 1 }
    { w with doc := w.doc.appendToHead (.mk style []) }
  else w

/-- The body of the module-level `DOMContentLoaded` closure, and of the `else` branch. -/
def moduleInit (w : World) : World :=
  construct (addFooterAnimationCSS w)

/-- Evaluation of the script (source lines 415 to 423). -/
def evalScript (w : World) : World :=
  if w.phase.readyState = .loading then
    { w with docListeners := w.docListeners ++ [.moduleInit] }
  else moduleInit w

/-- Run one `DOMContentLoaded` listener. -/
def DocHandler.run : DocHandler → World → Except JsError World
  | .moduleInit, w => .ok (Footer.moduleInit w)
  | .controllerInit, w => onDOMContentLoaded w

/-- Dispatch `DOMContentLoaded` on the document: the listeners registered when the
dispatch starts run in order; a listener added while it runs is not called. -/
def dispatchDOMContentLoaded (w : World) : Except JsError World :=
  w.docListeners.foldlM (fun w h => h.run w) w

/-- The rest of the page load after the script has been evaluated:
`DOMContentLoaded` is dispatched if it has not been yet, then the page is loaded. -/
def finishLoading (w : World) : Except JsError World :=
  match w.phase with
  | .parsing | .parsed =>
    (dispatchDOMContentLoaded { w with phase := .parsed }).map
      (fun w => { w with phase := .loaded })
  | .domReady | .loaded => .ok { w with phase := .loaded }

/-! ## A sample page -/

/-- An element without attributes, inline style or text. -/
def el (nid : Nat) (tag : String) (className : List String) (rect : Rect)
    (children : List Node) : Node :=
  .mk { nid := nid, tag := tag, className := className, attrs := [], style := [], text := "",
        rect := rect } children

/-- A link with the given attributes. -/
def link (nid : Nat) (attrs : List (String × String)) (rect : Rect) (children : List Node) :
    Node :=
  .mk { nid := nid, tag := "a", className := [], attrs := attrs, style := [], text := "",
        rect := rect } children

/-- A footer with a list of plain links and a list of social links: link 5 is a
plain footer link, link 8 is a social link with a title and an icon, link 10 is a
social link with neither, link 11 has an empty title and link 12 an empty
`aria-label`. -/
def sampleFooter : Node :=
  el 2 "footer" ["enhanced-footer"] ⟨0, 500, 800, 300⟩
    [el 3 "div" ["footer-section"] ⟨0, 500, 400, 300⟩
       [el 4 "ul" ["footer-links"] ⟨0, 500, 400, 100⟩
          [link 5 [("href", "/about")] ⟨10, 520, 80, 20⟩ []]],
     el 6 "div" ["footer-section"] ⟨400, 500, 400, 300⟩
       [el 7 "div" ["social-links"] ⟨400, 500, 400, 100⟩
          [link 8 [("href", "https://github.com"), ("title", "GitHub")] ⟨410, 520, 40, 40⟩
             [el 9 "i" ["fab", "fa-github"] ⟨420, 530, 20, 20⟩ []],
           link 10 [("href", "/feed")] ⟨460, 520, 40, 40⟩ [],
           link 11 [("href", "/x"), ("title", "")] ⟨510, 520, 40, 40⟩ [],
           link 12 [("href", "/y"), ("title", "Mail"), ("aria-label", "")] ⟨560, 520, 40, 40⟩
             []]]]

/-- A document whose body holds the sample footer. -/
def sampleDoc : Document :=
  ⟨el 0 "head" [] Rect.zero [], el 1 "body" [] ⟨0, 0, 800, 800⟩ [sampleFooter]⟩

/-- A document without any `.enhanced-footer` element. -/
def plainDoc : Document :=
  ⟨el 0 "head" [] Rect.zero [],
   el 1 "body" [] ⟨0, 0, 800, 800⟩ [el 2 "div" ["social-links"] Rect.zero [link 3 [] Rect.zero []]]⟩

/-- The sample page in the given phase of its load, before the script runs. -/
def samplePage (phase : Phase) : World := World.page sampleDoc 13 phase

/-- The sample page as the constructor leaves it. -/
def sampleConstructed : World := construct (samplePage .parsed)

/-- Unwrap a result, keeping the given state on an exception. -/
def orElse (w : World) : Except JsError World → World
  | .ok w1 => w1
  | .error _ => w

/-- The sample page after the `DOMContentLoaded` closure of `init` has run. -/
def sampleReady : World := orElse sampleConstructed (onDOMContentLoaded sampleConstructed)

/-! ## Counting children -/

/-- The number of children of `e` whose data satisfies `q`. -/
def Document.countChildren (d : Document) (e : Nat) (q : Data → Bool) : Nat :=
  ((d.childrenOf e).filter (fun n => q n.data)).length

/-! ## Registering listeners -/

/-- The state with further listeners registered. -/
def registerAll (w : World) (ls : List Listener) : World :=
  { w with listeners := w.listeners ++ ls }

/-! ## Steps of the running page -/

/-- What can happen on the page once the controller is set up. -/
inductive Step where
  | event (target : Nat) (type : EvType) (e : DomEvent)
  | timer (i : Nat) (r1 r2 : ℚ)
  | intersect (entries : List Bool)
  | advance (t : Nat)

/-- The effect of one step: an event is dispatched at an element, a pending timer
fires, the intersection observer calls back (an exception it throws is reported
and leaves the state as it was), or the clock advances. -/
def step : Step → World → World
  | .event target type e, w => (dispatchEvent target type e w).2
  | .timer i r1 r2, w => fireTimer i r1 r2 w
  | .intersect entries, w => orElse w (onIntersect entries w)
  | .advance t, w => { w with now := max w.now t }

/-- Run a sequence of steps. -/
def run (steps : List Step) (w : World) : World :=
  steps.foldl (fun w s => step s w) w

/-- The second state extends the first: the controller fields, the registered
listeners and the clock are the same, and the pending timers of the first are
still pending, in front of those added. -/
def Extends (w w1 : World) : Prop :=
  w1.isVisible = w.isVisible ∧ w1.footer = w.footer ∧ w1.animationDelay = w.animationDelay ∧
  w1.listeners = w.listeners ∧ w1.now = w.now ∧ ∃ extra, w1.timers = w.timers ++ extra

/-! ## Definitions used in the statement of claim C4 -/

/-- The entrance timers for the given sections, numbered from `k`, set at clock
value `now` with stagger `delay`. -/
def entranceTimers (now delay : Nat) : Nat → List Nat → List Timer
  | _, [] => []
  | k, s :: rest => ⟨k * delay, now + k * delay, .entrance s⟩ :: entranceTimers now delay (k + 1) rest

/-- The `.footer-section` elements below the footer `f`. -/
def sectionsOf (w : World) (f : Nat) : List Nat :=
  w.doc.querySelectorAllFrom f selFooterSection

/-- Deliver a sequence of intersection observer callbacks. -/
def deliver (callbacks : List (List Bool)) (w : World) : Except JsError World :=
  callbacks.foldlM (fun w entries => onIntersect entries w) w

/-- The state with further timers pending. -/
def addTimers (w : World) (ts : List Timer) : World :=
  { w with timers := w.timers ++ ts }

/-- The state after the first intersecting entry. -/
def entered (w : World) (f : Nat) : World :=
  { addTimers w (entranceTimers w.now w.animationDelay 0 (sectionsOf w f)) with
    isVisible := true }

/-! ## Definitions used in the statement of claim C5 -/

mutual
/-- The number of elements of a subtree whose data satisfies `q`. -/
def Node.count (q : Data → Bool) : Node → Nat
  | .mk d cs => (if q d then 1 else 0) + Node.countList q cs
/-- The number of elements of a list of subtrees whose data satisfies `q`. -/
def Node.countList (q : Data → Bool) : List Node → Nat
  | [] => 0
  | c :: cs => Node.count q c + Node.countList q cs
end

/-- The number of elements of the document whose data satisfies `q`. -/
def Document.count (d : Document) (q : Data → Bool) : Nat :=
  Node.countList q d.trees

/-- The identifier of the injected style element. -/
def animationsId : String := "enhanced-footer-animations"

/-- An element whose `id` is `enhanced-footer-animations`. -/
def hasAnimationsId (x : Data) : Bool :=
  decide (x.attrs.lookup "id" = some animationsId)

/-- A `style` element whose `id` is `enhanced-footer-animations`. -/
def isAnimationsStyle (x : Data) : Bool :=
  decide (x.tag = "style") && hasAnimationsId x

/-- The element `addFooterAnimationCSS` creates. -/
def animationsStyle (nid : Nat) : Node :=
  .mk { nid := nid, tag := "style", className := [], attrs := [("id", animationsId)],
        style := [], text := keyframesText, rect := Rect.zero } []

/-- A document that already holds a `div` with the identifier of the style element. -/
def clashDoc : Document :=
  ⟨el 0 "head" [] Rect.zero [],
   .mk { nid := 1, tag := "body", className := [], attrs := [], style := [], text := "",
         rect := Rect.zero }
     [.mk { nid := 2, tag := "div", className := [], attrs := [("id", animationsId)],
            style := [], text := "", rect := Rect.zero } []]⟩

/-! ## Definitions used in the statement of claim C7 -/

/-- What a page load ends with: the footer the controller holds and the number of
listeners it has registered on elements; `none` if an exception escaped. -/
def outcome : Except JsError World → Option (Option Nat × Nat)
  | .ok w => some (w.footer, w.listeners.length)
  | .error _ => none

/-! ## Definitions used in the statement of claim C1 -/

/-- An element built by `createClickRipple`, recognised by its animation. -/
def isRipple (x : Data) : Bool :=
  decide (x.style.lookup "animation" = some (.text "ripple 0.6s ease-out"))

/-! ## Definitions used in the statement of claim C3 -/

/-- An element of class `floating-particle`. -/
def isParticle (x : Data) : Bool :=
  decide ("floating-particle" ∈ x.className)

/-- The element `createFloatingParticle` builds. -/
def particleNode (nid : Nat) (r1 r2 : ℚ) : Node :=
  .mk { nid := nid, tag := "div", className := ["floating-particle"], attrs := [],
        style := particleCss r1 r2, text := "", rect := Rect.zero } []

/-- The three timers `createFloatingIcons` sets at clock value `now`. -/
def spawnTimers (now element : Nat) : List Timer :=
  [⟨0, now + 0, .spawnParticle element⟩, ⟨50, now + 50, .spawnParticle element⟩,
   ⟨100, now + 100, .spawnParticle element⟩]

/-- The second state differs from the first in the document only. -/
def DocOnly (w w1 : World) : Prop :=
  w1 = { w with doc := w1.doc }

/-! ## Definitions used in the statement of claim C9 -/

/-- The number of pending cleanup timers for the element `n`. -/
def cleanupCount (ts : List Timer) (n : Nat) : Nat :=
  (ts.filter (fun t => decide (t.action = .removeNode n))).length

/-- The element a timer callback removes, if it is a cleanup. -/
def TimerAction.cleans : TimerAction → Option Nat
  | .removeNode n => some n
  | _ => none

/-- Every pending cleanup timer is for an element that has been created. -/
def Fresh (w : World) : Prop :=
  ∀ t ∈ w.timers, ∀ n ∈ t.action.cleans, n < w.nextId

/-- The second state has created no fewer elements, and each of its pending
timers was pending in the first or is not a cleanup of an element yet to be created. -/
def Grows (w w1 : World) : Prop :=
  w.nextId ≤ w1.nextId ∧
  ∀ t ∈ w1.timers, t ∈ w.timers ∨ ∀ n, t.action = .removeNode n → n < w1.nextId

/-- The steps of one hover on the social link 8 of the sample page with every
timer firing when it is due: the hover, the three particle timers, then the three
cleanup timers. -/
def hoverSteps : List Step :=
  [.event 8 .mouseenter (DomEvent.mouse 430 545), .timer 0 0 0, .timer 0 0 0, .timer 0 0 0,
   .timer 0 0 0, .timer 0 0 0, .timer 0 0 0]

/-! ## Definitions used in the statement of claim C10 -/

/-- The data of the element `e` of the document. -/
def Document.dataOf (d : Document) (e : Nat) : Option Data :=
  (d.locate e).map (fun r => r.2.data)

/-- The test of the first loop of `setupAccessibility` on the attributes of a link:
a truthy `title` and no truthy `aria-label`. -/
def needsLabel (x : Data) : Bool :=
  truthy (x.attrs.lookup "title") && !truthy (x.attrs.lookup "aria-label")

/-- The data of a link after the first loop of `setupAccessibility` has visited it. -/
def labelled (x : Data) : Data :=
  if needsLabel x then
    { x with attrs := setAttr "aria-label" ((x.attrs.lookup "title").getD "") x.attrs }
  else x

/-- The sample page with the footer looked up, before any setup step. -/
def sampleFound : World := { samplePage .parsed with footer := some 2 }

/-! ## Definitions used in the statement of claim C8 -/

/-- A footer whose only link sits in a `.footer-bottom` block, outside
`.footer-links` and `.social-links`. -/
def bottomDoc : Document :=
  ⟨el 0 "head" [] Rect.zero [],
   el 1 "body" [] ⟨0, 0, 800, 800⟩
     [el 2 "footer" ["enhanced-footer"] ⟨0, 500, 800, 300⟩
        [el 3 "div" ["footer-bottom"] ⟨0, 700, 800, 100⟩
           [link 4 [("href", "/privacy")] ⟨10, 720, 80, 20⟩ []]]]⟩

/-- The page of `bottomDoc` after the `DOMContentLoaded` closure of `init` has run. -/
def bottomReady : World :=
  orElse (construct (World.page bottomDoc 5 .parsed))
    (onDOMContentLoaded (construct (World.page bottomDoc 5 .parsed)))

/-! ## Further definitions used in the statement of claim C9 -/

/-- Either the cleanup timer `c` is still pending or the element `n` has no parent. -/
def PendingOrGone (c : Timer) (n : Nat) (v : World) : Prop :=
  c ∈ v.timers ∨ v.doc.parentNode n = none

/-- No pending timer is overdue: the clock has not passed any due time. -/
def Punctual (v : World) : Prop :=
  ∀ t ∈ v.timers, v.now ≤ t.due

/-- The second state has created no fewer elements, and an element created in the
first that has no parent there has none in the second. -/
def Stays (n : Nat) (w w1 : World) : Prop :=
  w.nextId ≤ w1.nextId ∧
  (n < w.nextId → w.doc.parentNode n = none → w1.doc.parentNode n = none)

/-- A click whose cleanup timer is late, and a hover whose first particle timer has
fired but whose cleanup is late: the clock is moved to 5000 with nothing firing. -/
def lateClick : World :=
  run [.event 5 .click (DomEvent.mouse 20 530), .advance 5000] sampleReady

/-- A hover on link 8, its first particle timer firing when due, then the clock
moved to 5000 with nothing else firing. -/
def lateHover : World :=
  run [.event 8 .mouseenter (DomEvent.mouse 430 545), .timer 0 0 0, .advance 5000] sampleReady

/-- The steps of one click on the plain footer link 5 of the sample page with its
cleanup timer firing when due, observed at clock value 700. -/
def clickSteps : List Step :=
  [.timer 0 0 0, .advance 700]

/-! # Part II: lemmas and the claims -/

/-! ## Lemmas on the tree operations -/

theorem Node_data_update (e : Nat) (f : Data → Data) (n : Node) :
    (Node.update e f n).data = if n.data.nid = e then { f n.data with nid := n.data.nid } else n.data := by
  cases n with
  | mk d cs => simp [Node.update, Node.data]

theorem Node_nid_update (e : Nat) (f : Data → Data) (n : Node) :
    (Node.update e f n).data.nid = n.data.nid := by
  rw [Node_data_update]; split <;> rfl

theorem Node_data_appendChild (p : Nat) (c n : Node) :
    (Node.appendChild p c n).data = n.data := by
  cases n with
  | mk d cs => simp [Node.appendChild, Node.data]

theorem Node_data_detach (e : Nat) (n : Node) : (Node.detach e n).data = n.data := by
  cases n with
  | mk d cs => simp [Node.detach, Node.data]

theorem Node_locateList_append (e : Nat) (anc : List Data) (xs ys : List Node) :
    Node.locateList e anc (xs ++ ys) =
      (Node.locateList e anc xs).orElse (fun _ => Node.locateList e anc ys) := by
  induction xs with
  | nil => simp [Node.locateList]
  | cons x xs ih =>
    simp only [List.cons_append, Node.locateList]
    cases Node.locate e anc x <;> simp [ih]

mutual
/-- The element found by `locate` carries the identity searched for. -/
theorem Node_locate_nid (e : Nat) :
    ∀ (n : Node) (anc : List Data) (r : List Data × Node),
      Node.locate e anc n = some r → r.2.data.nid = e
  | .mk d cs, anc, r, h => by
    simp only [Node.locate] at h
    by_cases hd : d.nid = e
    · simp only [hd, if_true, Option.some.injEq] at h
      subst h; simpa [Node.data] using hd
    · simp only [hd, if_false] at h
      exact Node_locateList_nid e cs (d :: anc) r h
/-- The list form of `locate_nid`. -/
theorem Node_locateList_nid (e : Nat) :
    ∀ (cs : List Node) (anc : List Data) (r : List Data × Node),
      Node.locateList e anc cs = some r → r.2.data.nid = e
  | [], _, _, h => by simp [Node.locateList] at h
  | c :: cs, anc, r, h => by
    simp only [Node.locateList] at h
    cases hc : Node.locate e anc c with
    | some r1 =>
      rw [hc] at h
      simp only [Option.some.injEq] at h
      subst h
      exact Node_locate_nid e c anc r1 hc
    | none =>
      rw [hc] at h
      exact Node_locateList_nid e cs anc r h
end

mutual
/-- The subtree found does not depend on the ancestors the search starts with. -/
theorem Node_locate_snd (e : Nat) :
    ∀ (n : Node) (anc anc1 : List Data),
      (Node.locate e anc n).map Prod.snd = (Node.locate e anc1 n).map Prod.snd
  | .mk d cs, anc, anc1 => by
    simp only [Node.locate]
    by_cases hd : d.nid = e
    · simp [hd]
    · simp only [hd, if_false]
      exact Node_locateList_snd e cs (d :: anc) (d :: anc1)
/-- The list form of `locate_snd`. -/
theorem Node_locateList_snd (e : Nat) :
    ∀ (cs : List Node) (anc anc1 : List Data),
      (Node.locateList e anc cs).map Prod.snd = (Node.locateList e anc1 cs).map Prod.snd
  | [], _, _ => by simp [Node.locateList]
  | c :: cs, anc, anc1 => by
    simp only [Node.locateList]
    have h1 := Node_locate_snd e c anc anc1
    have h2 := Node_locateList_snd e cs anc anc1
    cases hc : Node.locate e anc c with
    | some r =>
      cases hc1 : Node.locate e anc1 c with
      | some r1 => simpa [hc, hc1] using h1
      | none => simp [hc, hc1] at h1
    | none =>
      cases hc1 : Node.locate e anc1 c with
      | some r1 => simp [hc, hc1] at h1
      | none => simpa using h2
end

mutual
/-- Searching after `update` finds the updated image of what was found before. -/
theorem Node_locate_update (e x : Nat) (f : Data → Data) :
    ∀ (n : Node) (anc anc1 : List Data),
      (Node.locate e anc1 (Node.update x f n)).map Prod.snd =
        ((Node.locate e anc n).map Prod.snd).map (Node.update x f)
  | .mk d cs, anc, anc1 => by
    have hn : (if d.nid = x then { f d with nid := d.nid } else d).nid = d.nid := by
      split <;> rfl
    simp only [Node.update, Node.locate, hn]
    by_cases hd : d.nid = e
    · simp [hd, Node.update]
    · simp only [hd, if_false]
      exact Node_locateList_update e x f cs (d :: anc) _
/-- The list form of `locate_update`. -/
theorem Node_locateList_update (e x : Nat) (f : Data → Data) :
    ∀ (cs : List Node) (anc anc1 : List Data),
      (Node.locateList e anc1 (Node.updateList x f cs)).map Prod.snd =
        ((Node.locateList e anc cs).map Prod.snd).map (Node.update x f)
  | [], _, _ => by simp [Node.updateList, Node.locateList]
  | c :: cs, anc, anc1 => by
    simp only [Node.updateList, Node.locateList]
    have h1 := Node_locate_update e x f c anc anc1
    have h2 := Node_locateList_update e x f cs anc anc1
    cases hc : Node.locate e anc c with
    | some r =>
      cases hc1 : Node.locate e anc1 (Node.update x f c) with
      | some r1 => simpa [hc, hc1] using h1
      | none => simp [hc, hc1] at h1
    | none =>
      cases hc1 : Node.locate e anc1 (Node.update x f c) with
      | some r1 => simp [hc, hc1] at h1
      | none => simpa using h2
end

theorem Node_locate_none_of_none (e : Nat) (n : Node) (anc anc1 : List Data)
    (h : Node.locate e anc n = none) : Node.locate e anc1 n = none := by
  have := Node_locate_snd e n anc anc1
  rw [h] at this
  cases h1 : Node.locate e anc1 n with
  | none => rfl
  | some r => simp [h1] at this

theorem Node_locateList_none_of_none (e : Nat) (cs : List Node) (anc anc1 : List Data)
    (h : Node.locateList e anc cs = none) : Node.locateList e anc1 cs = none := by
  have := Node_locateList_snd e cs anc anc1
  rw [h] at this
  cases h1 : Node.locateList e anc1 cs with
  | none => rfl
  | some r => simp [h1] at this

mutual
/-- Appending below an element that is not in the subtree changes nothing. -/
theorem Node_appendChild_absent (p : Nat) (c : Node) :
    ∀ (n : Node) (anc : List Data), Node.locate p anc n = none → Node.appendChild p c n = n
  | .mk d cs, anc, h => by
    simp only [Node.locate] at h
    by_cases hd : d.nid = p
    · simp [hd] at h
    · simp only [hd, if_false] at h
      simp [Node.appendChild, hd, Node_appendChildList_absent p c cs (d :: anc) h]
/-- The list form of `appendChild_absent`. -/
theorem Node_appendChildList_absent (p : Nat) (c : Node) :
    ∀ (cs : List Node) (anc : List Data),
      Node.locateList p anc cs = none → Node.appendChildList p c cs = cs
  | [], _, _ => by simp [Node.appendChildList]
  | x :: cs, anc, h => by
    simp only [Node.locateList] at h
    cases hx : Node.locate p anc x with
    | some r => simp [hx] at h
    | none =>
      rw [hx] at h
      simp [Node.appendChildList, Node_appendChild_absent p c x anc hx,
        Node_appendChildList_absent p c cs anc h]
end

mutual
/-- Searching for the parent after `appendChild` finds the image of what was found before. -/
theorem Node_locate_appendChild (p : Nat) (c : Node) :
    ∀ (n : Node) (anc anc1 : List Data) (r : List Data × Node),
      Node.locate p anc n = some r →
      (Node.locate p anc1 (Node.appendChild p c n)).map Prod.snd =
        some (Node.appendChild p c r.2)
  | .mk d cs, anc, anc1, r, h => by
    simp only [Node.locate] at h
    simp only [Node.appendChild, Node.locate]
    by_cases hd : d.nid = p
    · simp only [hd, if_true, Option.some.injEq] at h
      subst h
      simp [hd, Node.appendChild]
    · simp only [hd, if_false] at h
      simp only [hd, if_false, Node_locateList_append]
      have h1 := Node_locateList_appendChild p c cs (d :: anc) (d :: anc1) r h
      cases hl : Node.locateList p (d :: anc1) (Node.appendChildList p c cs) with
      | some r1 => simpa [hl] using h1
      | none => simp [hl] at h1
/-- The list form of `locate_appendChild`. -/
theorem Node_locateList_appendChild (p : Nat) (c : Node) :
    ∀ (cs : List Node) (anc anc1 : List Data) (r : List Data × Node),
      Node.locateList p anc cs = some r →
      (Node.locateList p anc1 (Node.appendChildList p c cs)).map Prod.snd =
        some (Node.appendChild p c r.2)
  | [], _, _, _, h => by simp [Node.locateList] at h
  | x :: cs, anc, anc1, r, h => by
    simp only [Node.locateList] at h
    simp only [Node.appendChildList, Node.locateList]
    cases hx : Node.locate p anc x with
    | some r1 =>
      rw [hx] at h
      simp only [Option.some.injEq] at h
      subst h
      have h1 := Node_locate_appendChild p c x anc anc1 r1 hx
      cases hl : Node.locate p anc1 (Node.appendChild p c x) with
      | some r2 => simpa [hl] using h1
      | none => simp [hl] at h1
    | none =>
      rw [hx] at h
      have h0 : Node.locate p anc1 (Node.appendChild p c x) = none := by
        rw [Node_appendChild_absent p c x anc hx]
        exact Node_locate_none_of_none p x anc anc1 hx
      simp only [h0]
      exact Node_locateList_appendChild p c cs anc anc1 r h
end

mutual
/-- After `detach`, the element is found nowhere below the root of a subtree. -/
theorem Node_locate_detach (e : Nat) :
    ∀ (n : Node) (anc : List Data) (r : List Data × Node),
      Node.locate e anc (Node.detach e n) = some r → r.1 = anc
  | .mk d cs, anc, r, h => by
    simp only [Node.detach, Node.locate] at h
    by_cases hd : d.nid = e
    · simp only [hd, if_true, Option.some.injEq] at h
      subst h; rfl
    · simp only [hd, if_false] at h
      rw [Node_locateList_detach e cs (d :: anc)] at h
      simp at h
/-- The list form of `locate_detach`. -/
theorem Node_locateList_detach (e : Nat) :
    ∀ (cs : List Node) (anc : List Data), Node.locateList e anc (Node.detachList e cs) = none
  | [], _ => by simp [Node.detachList, Node.locateList]
  | c :: cs, anc => by
    simp only [Node.detachList]
    by_cases hc : c.data.nid = e
    · simp only [hc, if_true]
      exact Node_locateList_detach e cs anc
    · simp only [hc, if_false, Node.locateList]
      cases hl : Node.locate e anc (Node.detach e c) with
      | none => exact Node_locateList_detach e cs anc
      | some r =>
        exfalso
        have := Node_locate_nid e (Node.detach e c) anc r hl
        cases c with
        | mk d cs1 =>
          simp only [Node.detach, Node.locate] at hl
          simp only [Node.data] at hc
          simp only [hc, if_false] at hl
          rw [Node_locateList_detach e cs1 (d :: anc)] at hl
          simp at hl
end

/-! ## Lemmas on the document operations -/

theorem Document_childrenOf_eq (d : Document) (e : Nat) :
    d.childrenOf e = (((d.locate e).map Prod.snd).map Node.children).getD [] := by
  unfold Document.childrenOf
  cases d.locate e with
  | none => rfl
  | some r => rfl

theorem Document_locate_update (d : Document) (x e : Nat) (f : Data → Data) :
    ((d.update x f).locate e).map Prod.snd =
      ((d.locate e).map Prod.snd).map (Node.update x f) := by
  have := Node_locateList_update e x f d.trees [] []
  simpa [Document.locate, Document.update, Document.trees, Node.updateList] using this

theorem Document_locate_isSome_update (d : Document) (x e : Nat) (f : Data → Data) :
    ((d.update x f).locate e).isSome = (d.locate e).isSome := by
  have := Document_locate_update d x e f
  cases h1 : (d.update x f).locate e <;> cases h2 : d.locate e <;> simp [h1, h2] at this ⊢

theorem Node_children_update (x : Nat) (f : Data → Data) (n : Node) :
    (Node.update x f n).children = Node.updateList x f n.children := by
  cases n with
  | mk d cs => simp [Node.update, Node.children]

theorem Node_children_appendChild (p : Nat) (c n : Node) (h : n.data.nid = p) :
    (Node.appendChild p c n).children = Node.appendChildList p c n.children ++ [c] := by
  cases n with
  | mk d cs =>
    simp only [Node.data] at h
    simp [Node.appendChild, Node.children, h]

theorem Document_childrenOf_update (d : Document) (x e : Nat) (f : Data → Data) :
    (d.update x f).childrenOf e = Node.updateList x f (d.childrenOf e) := by
  rw [Document_childrenOf_eq, Document_childrenOf_eq, Document_locate_update]
  cases d.locate e with
  | none => simp [Node.updateList]
  | some r => simp [Node_children_update]

theorem Document_childrenOf_appendChild (d : Document) (p : Nat) (c : Node)
    (h : (d.locate p).isSome) :
    (d.appendChild p c).childrenOf p = Node.appendChildList p c (d.childrenOf p) ++ [c] := by
  rw [Document_childrenOf_eq, Document_childrenOf_eq]
  cases hl : d.locate p with
  | none => simp [hl] at h
  | some r =>
    have h1 := Node_locateList_appendChild p c d.trees [] [] r hl
    have h2 : (d.appendChild p c).trees = Node.appendChildList p c d.trees := by
      simp [Document.appendChild, Document.trees, Node.appendChildList]
    have h3 := Node_locateList_nid p d.trees [] r hl
    simp only [Document.locate, h2, h1]
    simp [Node_children_appendChild p c r.2 h3]

theorem Document_parentNode_detach (d : Document) (e : Nat) :
    (d.detach e).parentNode e = none := by
  unfold Document.parentNode Document.locate
  cases hl : Node.locateList e [] (d.detach e).trees with
  | none => rfl
  | some r =>
    simp only [Document.detach, Document.trees, Node.locateList] at hl
    cases h1 : Node.locate e [] (Node.detach e d.head) with
    | some r1 =>
      rw [h1] at hl
      simp only [Option.some.injEq] at hl
      subst hl
      simp [Node_locate_detach e d.head [] r1 h1]
    | none =>
      rw [h1] at hl
      cases h2 : Node.locate e [] (Node.detach e d.body) with
      | some r2 =>
        rw [h2] at hl
        simp only [Option.some.injEq] at hl
        subst hl
        simp [Node_locate_detach e d.body [] r2 h2]
      | none => simp [h2] at hl

theorem Node_length_updateList (x : Nat) (f : Data → Data) (cs : List Node) :
    (Node.updateList x f cs).length = cs.length := by
  induction cs with
  | nil => simp [Node.updateList]
  | cons c cs ih => simp [Node.updateList, ih]

theorem Node_length_appendChildList (p : Nat) (c : Node) (cs : List Node) :
    (Node.appendChildList p c cs).length = cs.length := by
  induction cs with
  | nil => simp [Node.appendChildList]
  | cons x cs ih => simp [Node.appendChildList, ih]

theorem Node_filter_updateList (x : Nat) (f : Data → Data) (q : Data → Bool)
    (hq : ∀ a : Data, q { f a with nid := a.nid } = q a) (cs : List Node) :
    ((Node.updateList x f cs).filter (fun n => q n.data)).length =
      (cs.filter (fun n => q n.data)).length := by
  induction cs with
  | nil => simp [Node.updateList]
  | cons c cs ih =>
    have hc : q (Node.update x f c).data = q c.data := by
      rw [Node_data_update]; split
      · exact hq _
      · rfl
    simp only [Node.updateList, List.filter_cons, hc]
    split <;> simp [ih]

theorem Node_filter_appendChildList (p : Nat) (c : Node) (q : Data → Bool) (cs : List Node) :
    ((Node.appendChildList p c cs).filter (fun n => q n.data)).length =
      (cs.filter (fun n => q n.data)).length := by
  induction cs with
  | nil => simp [Node.appendChildList]
  | cons x cs ih =>
    simp only [Node.appendChildList, List.filter_cons, Node_data_appendChild]
    split <;> simp [ih]

/-! ## Lemmas on the controller -/

/-- A loop that only registers listeners appends them in order. -/
theorem foldl_register (g : Nat → List Listener) (step : World → Nat → World)
    (hstep : ∀ w x, step w x = registerAll w (g x)) :
    ∀ (xs : List Nat) (w : World),
      xs.foldl step w = registerAll w (xs.map g).flatten
  | [], w => by simp [registerAll]
  | x :: xs, w => by
    simp only [List.foldl_cons, hstep w x]
    rw [foldl_register g step hstep xs]
    simp [registerAll, List.append_assoc]

theorem createClickRipple_doc (e : DomEvent) (element : Nat) (w : World) :
    (createClickRipple e element w).doc =
      (((w.doc.setStyle element "position" (.text "relative")).setStyle element "overflow"
        (.text "hidden")).appendChild element
          (.mk (rippleData w.nextId e (w.doc.getBoundingClientRect element)) [])) := rfl

theorem createClickRipple_timers (e : DomEvent) (element : Nat) (w : World) :
    (createClickRipple e element w).timers =
      w.timers ++ [⟨600, w.now + 600, .removeNode w.nextId⟩] := rfl

theorem createClickRipple_children (e : DomEvent) (element : Nat) (w : World)
    (h : (w.doc.locate element).isSome) :
    (createClickRipple e element w).doc.childrenOf element =
      Node.appendChildList element
        (.mk (rippleData w.nextId e (w.doc.getBoundingClientRect element)) [])
        (Node.updateList element
          (fun x => { x with style := setProp "overflow" (.text "hidden") x.style })
          (Node.updateList element
            (fun x => { x with style := setProp "position" (.text "relative") x.style })
            (w.doc.childrenOf element))) ++
      [.mk (rippleData w.nextId e (w.doc.getBoundingClientRect element)) []] := by
  rw [createClickRipple_doc, Document_childrenOf_appendChild]
  · simp only [Document.setStyle, Document_childrenOf_update]
  · simpa only [Document.setStyle, Document_locate_isSome_update] using h

/-! ## Claim C2 -/

/-- C2: for every target rectangle and every pointer position, the ripple that
`createClickRipple` builds has width and height `size = max(width, height)` and
offsets `left = clientX - rect.left - size/2`, `top = clientY - rect.top - size/2`,
so that its centre is the pointer position relative to the top-left corner of the
target; and that ripple, built from the rectangle of the target, becomes the last
child of the target. -/
theorem createClickRipple_geometry (nid : Nat) (rect : Rect) (cx cy : ℚ) :
    (rippleData nid (DomEvent.mouse cx cy) rect).style.lookup "width"
        = some (.px (some (max rect.width rect.height))) ∧
    (rippleData nid (DomEvent.mouse cx cy) rect).style.lookup "height"
        = some (.px (some (max rect.width rect.height))) ∧
    (rippleData nid (DomEvent.mouse cx cy) rect).style.lookup "left"
        = some (.px (some (cx - rect.left - max rect.width rect.height / 2))) ∧
    (rippleData nid (DomEvent.mouse cx cy) rect).style.lookup "top"
        = some (.px (some (cy - rect.top - max rect.width rect.height / 2))) ∧
    (cx - rect.left - max rect.width rect.height / 2) + max rect.width rect.height / 2
        = cx - rect.left ∧
    (cy - rect.top - max rect.width rect.height / 2) + max rect.width rect.height / 2
        = cy - rect.top ∧
    ∀ (w : World) (element : Nat), (w.doc.locate element).isSome →
      ((createClickRipple (DomEvent.mouse cx cy) element w).doc.childrenOf element).getLast?
        = some (.mk (rippleData w.nextId (DomEvent.mouse cx cy)
            (w.doc.getBoundingClientRect element)) []) := by
  refine ⟨?_, ?_, ?_, ?_, ?_, ?_, ?_⟩
  · simp [rippleData, rippleCss, rippleSize, List.lookup]
  · simp [rippleData, rippleCss, rippleSize, List.lookup]
  · simp [rippleData, rippleCss, rippleSize, rippleX, DomEvent.mouse, List.lookup]
  · simp [rippleData, rippleCss, rippleSize, rippleY, DomEvent.mouse, List.lookup]
  · ring
  · ring
  · intro w element h
    rw [createClickRipple_children _ _ _ h]
    simp

/-- The geometry of a ripple for a click at (430, 545) on the social link 8 of
the sample page, whose rectangle is 40 by 40 at (410, 520). -/
theorem createClickRipple_geometry_witness :
    (sampleReady.doc.locate 8).isSome ∧
    ((createClickRipple (DomEvent.mouse 430 545) 8 sampleReady).doc.childrenOf 8).getLast?
        = some (.mk (rippleData sampleReady.nextId (DomEvent.mouse 430 545)
            (sampleReady.doc.getBoundingClientRect 8)) []) :=
  ⟨by decide,
   (createClickRipple_geometry 0 Rect.zero 430 545).2.2.2.2.2.2 sampleReady 8 (by decide)⟩

/-! ## Claim C8 -/

theorem lookup_setProp (n a : String) (v : CssVal) (l : List (String × CssVal)) :
    (setProp n v l).lookup a = if a = n then some v else l.lookup a := by
  induction l with
  | nil =>
    by_cases h : a = n
    · simp [setProp, List.lookup, h]
    · have hb : (a == n) = false := by simpa using h
      simp [setProp, List.lookup, h, hb]
  | cons p rest ih =>
    obtain ⟨k, x⟩ := p
    by_cases hk : k = n
    · subst hk
      by_cases h : a = k
      · simp [setProp, List.lookup, h]
      · have hb : (a == k) = false := by simpa using h
        simp [setProp, List.lookup, h, hb]
    · by_cases hak : a = k
      · subst hak
        have hne : ¬ a = n := hk
        simp [setProp, List.lookup, hk, hne]
      · have hb : (a == k) = false := by simpa using hak
        simp [setProp, List.lookup, hk, hb, ih]

theorem isRipple_setProp (n : String) (v : CssVal) (hn : n ≠ "animation") (a : Data) :
    isRipple { a with style := setProp n v a.style } = isRipple a := by
  have h : ¬ "animation" = n := fun h => hn h.symm
  simp [isRipple, lookup_setProp, h]

theorem isRipple_rippleData (nid : Nat) (e : DomEvent) (rect : Rect) :
    isRipple (rippleData nid e rect) = true := by
  simp [isRipple, rippleData, rippleCss, List.lookup]

theorem createClickRipple_count (e : DomEvent) (element : Nat) (w : World)
    (h : (w.doc.locate element).isSome) :
    (createClickRipple e element w).doc.countChildren element isRipple =
      w.doc.countChildren element isRipple + 1 := by
  unfold Document.countChildren
  rw [createClickRipple_children e element w h, List.filter_append, List.length_append,
    Node_filter_appendChildList, Node_filter_updateList, Node_filter_updateList]
  · simp [Node.data, isRipple_rippleData]
  · intro a
    exact isRipple_setProp "position" _ (by decide) a
  · intro a
    exact isRipple_setProp "overflow" _ (by decide) a

/-- C8 as stated fails: the link 4 of this footer lies outside `.footer-links` and
`.social-links`, so it has the keydown listener but no click listener; a click on
it produces no ripple, the Enter key produces one. -/
theorem keydown_ripple_without_click_ripple :
    4 ∈ bottomDoc.querySelectorAllFrom 2 selLinks ∧
    bottomReady.listeners.filter (fun l => decide (l.target = 4 ∧ l.type = EvType.keydown))
      = [⟨4, .keydown, .keyActivate 4⟩] ∧
    bottomReady.listeners.filter (fun l => decide (l.target = 4 ∧ l.type = EvType.click))
      = [] ∧
    (step (.event 4 .click (DomEvent.mouse 20 730)) bottomReady).doc.countChildren 4 isRipple
      = 0 ∧
    (step (.event 4 .keydown (DomEvent.keyboard "Enter")) bottomReady).doc.countChildren 4
      isRipple = 1 := by
  decide!

/-- C8, amended: on a link whose keydown listener is the one `setupKeyboardNavigation`
registers (it registers it, once, on every `a` of the footer), a keydown with key
`Enter` or `' '` prevents the default action, appends exactly one ripple to the
link, built by `createClickRipple` from the keydown event, schedules the removal of
that ripple after 600 ms and the call `link.click()` after exactly 100 ms; a
keydown with any other key changes nothing and prevents nothing.  The size of a
ripple does not depend on the event, and a keyboard event, which carries no client
coordinates, gives it no numeric offsets.  A click dispatched on the link gives the
state `createClickRipple` gives for the click event when the only click listener is
the guarded one of `setupRippleEffects` and the link holds no `.ripple` element;
it changes nothing when the link has no click listener. -/
theorem keydown_ripple (w : World) (link : Nat) (e : DomEvent)
    (hreg : w.listeners.filter (fun l => decide (l.target = link ∧ l.type = EvType.keydown))
      = [⟨link, .keydown, .keyActivate link⟩]) :
    ((e.key = some "Enter" ∨ e.key = some " ") →
      (dispatchEvent link .keydown e w).1.defaultPrevented = true ∧
      (dispatchEvent link .keydown e w).2.doc = (createClickRipple e link w).doc ∧
      ((w.doc.locate link).isSome →
        ((dispatchEvent link .keydown e w).2.doc.childrenOf link).getLast?
          = some (.mk (rippleData w.nextId e (w.doc.getBoundingClientRect link)) []) ∧
        (dispatchEvent link .keydown e w).2.doc.countChildren link isRipple
          = w.doc.countChildren link isRipple + 1) ∧
      (dispatchEvent link .keydown e w).2.nextId = w.nextId + 1 ∧
      (dispatchEvent link .keydown e w).2.timers =
        w.timers ++ [⟨600, w.now + 600, .removeNode w.nextId⟩,
                     ⟨100, w.now + 100, .clickLink link⟩]) ∧
    (¬ (e.key = some "Enter" ∨ e.key = some " ") →
      dispatchEvent link .keydown e w = (e, w)) ∧
    (∀ f, w.footer = some f →
      setupKeyboardNavigation w = .ok (registerAll w
        ((w.doc.querySelectorAllFrom f selLinks).map
          (fun l => (⟨l, .keydown, .keyActivate l⟩ : Listener))))) ∧
    (∀ (nid : Nat) (e1 : DomEvent) (rect : Rect),
      (rippleData nid e1 rect).style.lookup "width"
        = some (.px (some (max rect.width rect.height))) ∧
      (rippleData nid e1 rect).style.lookup "height"
        = some (.px (some (max rect.width rect.height)))) ∧
    (∀ (nid : Nat) (k : String) (rect : Rect),
      (rippleData nid (DomEvent.keyboard k) rect).style.lookup "left" = some (.px none) ∧
      (rippleData nid (DomEvent.keyboard k) rect).style.lookup "top" = some (.px none)) ∧
    (w.listeners.filter (fun l => decide (l.target = link ∧ l.type = EvType.click))
        = [⟨link, .click, .rippleClick link⟩] →
      w.doc.querySelectorFrom link selRipple = none →
      ∀ e1 : DomEvent, dispatchEvent link .click e1 w = (e1, createClickRipple e1 link w)) ∧
    (w.listeners.filter (fun l => decide (l.target = link ∧ l.type = EvType.click)) = [] →
      ∀ e1 : DomEvent, dispatchEvent link .click e1 w = (e1, w)) := by
  have hd : dispatchEvent link .keydown e w = onKeydown link e w := by
    unfold dispatchEvent
    rw [hreg]
    rfl
  refine ⟨?_, ?_, ?_, ?_, ?_, ?_, ?_⟩
  · intro hk
    have h1 : onKeydown link e w =
        ({ e with defaultPrevented := true },
          setTimeout (.clickLink link) 100
            (createClickRipple { e with defaultPrevented := true } link w)) := by
      simp [onKeydown, hk]
    have h2 : createClickRipple { e with defaultPrevented := true } link w
        = createClickRipple e link w := rfl
    rw [hd, h1, h2]
    refine ⟨rfl, rfl, ?_, rfl, ?_⟩
    · intro hl
      constructor
      · show ((createClickRipple e link w).doc.childrenOf link).getLast? = _
        rw [createClickRipple_children _ _ _ hl]
        simp
      · exact createClickRipple_count e link w hl
    · have hnow : (createClickRipple e link w).now = w.now := rfl
      show (createClickRipple e link w).timers ++ _ = _
      rw [createClickRipple_timers, hnow]
      simp
  · intro hk
    rw [hd]
    simp [onKeydown, hk]
  · intro f hf
    simp only [setupKeyboardNavigation, hf]
    rw [foldl_register (fun l => [⟨l, .keydown, .keyActivate l⟩])]
    · congr 2
      induction w.doc.querySelectorAllFrom f selLinks with
      | nil => rfl
      | cons x xs ih => simp [ih]
    · intro w x; rfl
  · intro nid e1 rect
    constructor <;> simp [rippleData, rippleCss, rippleSize, List.lookup]
  · intro nid k rect
    constructor
    · simp [rippleData, rippleCss, rippleX, DomEvent.keyboard, List.lookup]
    · simp [rippleData, rippleCss, rippleY, DomEvent.keyboard, List.lookup]
  · intro hc hr e1
    unfold dispatchEvent
    rw [hc]
    simp [Handler.run, createRippleEffect, hr]
  · intro hc e1
    unfold dispatchEvent
    rw [hc]
    rfl

/-- On the plain footer link 5 of the sample page, set up by the controller, the
Enter key appends one ripple and schedules its removal and the deferred click; a
click on that link gives what `createClickRipple` gives. -/
theorem keydown_ripple_witness :
    sampleReady.listeners.filter (fun l => decide (l.target = 5 ∧ l.type = EvType.keydown))
      = [⟨5, .keydown, .keyActivate 5⟩] ∧
    (dispatchEvent 5 .keydown (DomEvent.keyboard "Enter") sampleReady).1.defaultPrevented = true ∧
    (dispatchEvent 5 .keydown (DomEvent.keyboard "Enter") sampleReady).2.timers =
      sampleReady.timers ++ [⟨600, sampleReady.now + 600, .removeNode sampleReady.nextId⟩,
                             ⟨100, sampleReady.now + 100, .clickLink 5⟩] ∧
    (sampleReady.doc.locate 5).isSome ∧
    (dispatchEvent 5 .keydown (DomEvent.keyboard "Enter") sampleReady).2.doc.countChildren 5
      isRipple = sampleReady.doc.countChildren 5 isRipple + 1 ∧
    dispatchEvent 5 .click (DomEvent.mouse 20 530) sampleReady
      = (DomEvent.mouse 20 530, createClickRipple (DomEvent.mouse 20 530) 5 sampleReady) :=
  ⟨by decide!,
   ((keydown_ripple sampleReady 5 (DomEvent.keyboard "Enter") (by decide!)).1
      (Or.inl rfl)).1,
   ((keydown_ripple sampleReady 5 (DomEvent.keyboard "Enter") (by decide!)).1
      (Or.inl rfl)).2.2.2.2,
   by decide!,
   (((keydown_ripple sampleReady 5 (DomEvent.keyboard "Enter") (by decide!)).1
      (Or.inl rfl)).2.2.1 (by decide!)).2,
   (keydown_ripple sampleReady 5 (DomEvent.keyboard "Enter") (by decide!)).2.2.2.2.2.1
     (by decide!) (by decide!) (DomEvent.mouse 20 530)⟩

/-! ## Steps of the running page -/

theorem Extends_refl (w : World) : Extends w w :=
  ⟨rfl, rfl, rfl, rfl, rfl, [], by simp⟩

theorem Extends_trans (a b c : World) (h1 : Extends a b) (h2 : Extends b c) : Extends a c := by
  obtain ⟨x1, x2, x3, x4, x5, e1, x6⟩ := h1
  obtain ⟨y1, y2, y3, y4, y5, e2, y6⟩ := h2
  exact ⟨y1.trans x1, y2.trans x2, y3.trans x3, y4.trans x4, y5.trans x5, e1 ++ e2,
    by rw [y6, x6, List.append_assoc]⟩

theorem Extends_ofDoc (w : World) (d : Document) : Extends w { w with doc := d } :=
  ⟨rfl, rfl, rfl, rfl, rfl, [], by simp⟩

theorem Extends_setTimeout (a : TimerAction) (d : Nat) (w : World) :
    Extends w (setTimeout a d w) :=
  ⟨rfl, rfl, rfl, rfl, rfl, [⟨d, w.now + d, a⟩], rfl⟩

theorem Extends_createClickRipple (e : DomEvent) (element : Nat) (w : World) :
    Extends w (createClickRipple e element w) :=
  ⟨rfl, rfl, rfl, rfl, rfl, [⟨600, w.now + 600, .removeNode w.nextId⟩], rfl⟩

theorem Extends_createFloatingParticle (parent : Nat) (r1 r2 : ℚ) (w : World) :
    Extends w (createFloatingParticle parent r1 r2 w) :=
  ⟨rfl, rfl, rfl, rfl, rfl, [⟨1000, w.now + 1000, .removeNode w.nextId⟩], rfl⟩

theorem createFloatingIcons_eq (element : Nat) (w : World) :
    createFloatingIcons element w =
      if (w.doc.querySelectorFrom element selIcon).isSome then
        { w with timers := w.timers ++
            [⟨0, w.now + 0, .spawnParticle element⟩, ⟨50, w.now + 50, .spawnParticle element⟩,
             ⟨100, w.now + 100, .spawnParticle element⟩] }
      else w := by
  unfold createFloatingIcons
  split
  · simp [List.range, List.range.loop, Footer.setTimeout, List.append_assoc]
  · rfl

theorem Extends_createFloatingIcons (element : Nat) (w : World) :
    Extends w (createFloatingIcons element w) := by
  rw [createFloatingIcons_eq]
  split
  · exact ⟨rfl, rfl, rfl, rfl, rfl, _, rfl⟩
  · exact Extends_refl w

theorem Extends_handler (h : Handler) (e : DomEvent) (w : World) :
    Extends w (h.run e w).2 := by
  cases h with
  | socialEnter link =>
    exact Extends_trans _ _ _ (Extends_createFloatingIcons link w) (Extends_ofDoc _ _)
  | socialLeave link => exact Extends_ofDoc _ _
  | socialClick link => exact Extends_createClickRipple e link w
  | rippleClick element =>
    show Extends w (createRippleEffect e element w)
    unfold createRippleEffect
    split
    · exact Extends_createClickRipple e element w
    · exact Extends_refl w
  | tooltipShow t => exact Extends_ofDoc _ _
  | tooltipHide t => exact Extends_ofDoc _ _
  | focusOutline x => exact Extends_ofDoc _ _
  | blurOutline x => exact Extends_ofDoc _ _
  | keyActivate link =>
    show Extends w (onKeydown link e w).2
    unfold onKeydown
    split
    · exact Extends_trans _ _ _ (Extends_createClickRipple _ link w) (Extends_setTimeout _ _ _)
    · exact Extends_refl w

theorem Extends_foldl_handlers (ls : List Listener) :
    ∀ (e : DomEvent) (w : World),
      Extends w (ls.foldl (fun s l => l.handler.run s.1 s.2) (e, w)).2 := by
  induction ls with
  | nil => intro e w; exact Extends_refl w
  | cons l ls ih =>
    intro e w
    simp only [List.foldl_cons]
    exact Extends_trans _ _ _ (Extends_handler l.handler e w) (ih _ _)

theorem Extends_dispatchEvent (target : Nat) (type : EvType) (e : DomEvent) (w : World) :
    Extends w (dispatchEvent target type e w).2 :=
  Extends_foldl_handlers _ e w

/-! ## Claim C4 -/

theorem foldl_entrance (xs : List (Nat × Nat)) :
    ∀ (w : World),
      xs.foldl (fun w p => setTimeout (.entrance p.2) (p.1 * w.animationDelay) w) w =
        addTimers w (xs.map (fun p =>
          ⟨p.1 * w.animationDelay, w.now + p.1 * w.animationDelay, .entrance p.2⟩)) := by
  induction xs with
  | nil => intro w; simp [addTimers]
  | cons x xs ih =>
    intro w
    simp only [List.foldl_cons, ih]
    simp [setTimeout, addTimers, List.append_assoc]

theorem entranceTimers_eq (now delay : Nat) (xs : List Nat) :
    ∀ k, (xs.enumFrom k).map (fun p => (⟨p.1 * delay, now + p.1 * delay, .entrance p.2⟩ : Timer))
      = entranceTimers now delay k xs := by
  induction xs with
  | nil => intro k; rfl
  | cons x xs ih => intro k; simp [List.enumFrom, entranceTimers, ih]

theorem triggerEntranceAnimation_eq (w : World) (f : Nat) (hf : w.footer = some f) :
    triggerEntranceAnimation w =
      .ok (addTimers w (entranceTimers w.now w.animationDelay 0 (sectionsOf w f))) := by
  simp only [triggerEntranceAnimation, hf, foldl_entrance, List.enum, entranceTimers_eq, sectionsOf]

theorem onIntersect_visible (entries : List Bool) (w : World) (hv : w.isVisible = true) :
    onIntersect entries w = .ok w := by
  unfold onIntersect
  induction entries with
  | nil => rfl
  | cons b bs ih =>
    simp only [List.foldlM_cons, hv, Bool.not_true, Bool.and_false]
    exact ih

theorem onIntersect_hidden (entries : List Bool) (w : World) (f : Nat)
    (hf : w.footer = some f) (hv : w.isVisible = false) :
    onIntersect entries w = .ok (if entries.any id then entered w f else w) := by
  unfold onIntersect
  induction entries with
  | nil => rfl
  | cons b bs ih =>
    cases b with
    | false =>
      simp only [List.foldlM_cons, Bool.false_and, List.any_cons, id, Bool.false_or]
      exact ih
    | true =>
      have h1 := onIntersect_visible bs (entered w f) rfl
      unfold onIntersect at h1
      simp only [List.foldlM_cons, hv, Bool.not_false, Bool.and_true, List.any_cons, id,
        Bool.true_or, if_true, triggerEntranceAnimation_eq w f hf]
      exact h1

theorem deliver_visible (callbacks : List (List Bool)) (w : World) (hv : w.isVisible = true) :
    deliver callbacks w = .ok w := by
  unfold deliver
  induction callbacks with
  | nil => rfl
  | cons c cs ih =>
    simp only [List.foldlM_cons, onIntersect_visible c w hv]
    exact ih

theorem deliver_hidden (callbacks : List (List Bool)) (w : World) (f : Nat)
    (hf : w.footer = some f) (hv : w.isVisible = false) :
    deliver callbacks w =
      .ok (if callbacks.any (fun entries => entries.any id) then entered w f else w) := by
  unfold deliver
  induction callbacks with
  | nil => rfl
  | cons c cs ih =>
    simp only [List.foldlM_cons, onIntersect_hidden c w f hf hv, List.any_cons]
    by_cases hc : c.any id = true
    · have h1 := deliver_visible cs (entered w f) rfl
      unfold deliver at h1
      simp only [hc, if_true, Bool.true_or]
      exact h1
    · simp only [hc, Bool.false_or]
      exact ih

theorem entranceTimers_length (now delay : Nat) (xs : List Nat) :
    ∀ k, (entranceTimers now delay k xs).length = xs.length := by
  induction xs with
  | nil => intro k; rfl
  | cons x xs ih => intro k; simp [entranceTimers, ih]

theorem entranceTimers_get (now delay : Nat) (xs : List Nat) :
    ∀ (k i : Nat) (s : Nat), xs.get? i = some s →
      (entranceTimers now delay k xs).get? i
        = some ⟨(k + i) * delay, now + (k + i) * delay, .entrance s⟩ := by
  induction xs with
  | nil => intro k i s h; simp at h
  | cons x xs ih =>
    intro k i s h
    cases i with
    | zero =>
      simp only [List.get?_cons_zero, Option.some.injEq] at h
      simp [entranceTimers, h]
    | succ i =>
      simp only [List.get?_cons_succ] at h
      simp only [entranceTimers, List.get?_cons_succ, ih (k + 1) i s h]
      have : k + 1 + i = k + (i + 1) := by omega
      rw [this]

theorem Extends_step_isVisible (s : Step) (w : World) (hv : w.isVisible = true) :
    (step s w).isVisible = true := by
  cases s with
  | event target type e =>
    exact (Extends_dispatchEvent target type e w).1.trans hv
  | timer i r1 r2 =>
    show (fireTimer i r1 r2 w).isVisible = true
    unfold fireTimer
    cases w.timers.get? i with
    | none => exact hv
    | some t =>
      simp only
      cases t.action with
      | entrance x => exact hv
      | spawnParticle x => exact hv
      | removeNode x =>
        show (removeIfAttached x _).isVisible = true
        unfold removeIfAttached
        split <;> exact hv
      | clickLink x =>
        exact (Extends_dispatchEvent x .click _ _).1.trans hv
  | intersect entries =>
    show (orElse w (onIntersect entries w)).isVisible = true
    rw [onIntersect_visible entries w hv]
    exact hv
  | advance t => exact hv

theorem run_isVisible (steps : List Step) :
    ∀ (w : World), w.isVisible = true → (run steps w).isVisible = true := by
  induction steps with
  | nil => intro w hv; exact hv
  | cons s ss ih =>
    intro w hv
    exact ih _ (Extends_step_isVisible s w hv)

/-- C4: starting from `isVisible = false`, a sequence of intersection observer
callbacks leaves the state untouched as long as no entry intersects; the first
intersecting entry sets `isVisible` and schedules one entrance timer per
`.footer-section`, the one of index `i` with delay `i * 100`, so delays increase
strictly with the index; once `isVisible` is true no callback schedules anything,
and no step of the page (event, timer, callback, clock) makes it false again. -/
theorem entrance_scheduled_once (w : World) (f : Nat) (hf : w.footer = some f)
    (hv : w.isVisible = false) (hd : w.animationDelay = 100) :
    (∀ callbacks : List (List Bool),
      deliver callbacks w =
        .ok (if callbacks.any (fun entries => entries.any id) then entered w f else w)) ∧
    (entered w f).isVisible = true ∧
    (entered w f).timers = w.timers ++ entranceTimers w.now 100 0 (sectionsOf w f) ∧
    (entranceTimers w.now 100 0 (sectionsOf w f)).length = (sectionsOf w f).length ∧
    (∀ i s, (sectionsOf w f).get? i = some s →
      (entranceTimers w.now 100 0 (sectionsOf w f)).get? i
        = some ⟨i * 100, w.now + i * 100, .entrance s⟩) ∧
    (∀ i j : Nat, i < j → i * 100 < j * 100) ∧
    (∀ (w1 : World) (callbacks : List (List Bool)), w1.isVisible = true →
      deliver callbacks w1 = .ok w1) ∧
    (∀ (w1 : World) (steps : List Step), w1.isVisible = true →
      (run steps w1).isVisible = true) := by
  refine ⟨fun cbs => deliver_hidden cbs w f hf hv, rfl, ?_, entranceTimers_length _ _ _ _, ?_,
    ?_, fun w1 cbs h => deliver_visible cbs w1 h, fun w1 steps h => run_isVisible steps w1 h⟩
  · simp [entered, addTimers, hd]
  · intro i s h
    have := entranceTimers_get w.now 100 (sectionsOf w f) 0 i s h
    simpa using this
  · intro i j h
    omega

/-- The sample page after setup: two sections, hence two entrance timers, set by
the first intersecting entry only. -/
theorem entrance_scheduled_once_witness :
    sampleReady.footer = some 2 ∧ sampleReady.isVisible = false ∧
    sampleReady.animationDelay = 100 ∧
    deliver [[false], [false, true, true], [true]] sampleReady = .ok (entered sampleReady 2) ∧
    (entered sampleReady 2).timers = [⟨0, 0, .entrance 3⟩, ⟨100, 100, .entrance 6⟩] :=
  ⟨by decide, by decide, by decide,
   (entrance_scheduled_once sampleReady 2 (by decide) (by decide) (by decide)).1
     [[false], [false, true, true], [true]],
   by decide⟩

/-! ## Claim C5 -/

theorem Node_countList_append (q : Data → Bool) (xs ys : List Node) :
    Node.countList q (xs ++ ys) = Node.countList q xs + Node.countList q ys := by
  induction xs with
  | nil => simp [Node.countList]
  | cons x xs ih => simp [Node.countList, ih, Nat.add_assoc]

mutual
/-- The elements `getElementById` ranges over are those counted by the `id` test. -/
theorem Node_length_selectAll_ident (i : String) :
    ∀ (n : Node) (anc : List Data),
      (Node.selectAll [[.ident i]] anc n).length
        = Node.count (fun x => decide (x.attrs.lookup "id" = some i)) n
  | .mk d cs, anc => by
    simp only [Node.selectAll, Node.count, List.length_append,
      Node_length_selectAllList_ident i cs (d :: anc)]
    congr 1
    by_cases h : d.attrs.lookup "id" = some i <;>
      simp [Selector.holds, Complex.holds, Simple.holds, matchesUp, h]
/-- The list form of `length_selectAll_ident`. -/
theorem Node_length_selectAllList_ident (i : String) :
    ∀ (cs : List Node) (anc : List Data),
      (Node.selectAllList [[.ident i]] anc cs).length
        = Node.countList (fun x => decide (x.attrs.lookup "id" = some i)) cs
  | [], _ => by simp [Node.selectAllList, Node.countList]
  | c :: cs, anc => by
    simp [Node.selectAllList, Node.countList, Node_length_selectAll_ident i c anc,
      Node_length_selectAllList_ident i cs anc]
end

mutual
/-- A stronger test counts fewer elements. -/
theorem Node_count_mono (q q1 : Data → Bool) (h : ∀ x, q x = true → q1 x = true) :
    ∀ n : Node, Node.count q n ≤ Node.count q1 n
  | .mk d cs => by
    simp only [Node.count]
    have h1 := Node_countList_mono q q1 h cs
    by_cases hq : q d = true
    · simp only [hq, h d hq, if_true]; omega
    · have hq0 : (if q d = true then 1 else 0) = 0 := by simp [hq]
      rw [hq0]
      omega
/-- The list form of `count_mono`. -/
theorem Node_countList_mono (q q1 : Data → Bool) (h : ∀ x, q x = true → q1 x = true) :
    ∀ cs : List Node, Node.countList q cs ≤ Node.countList q1 cs
  | [] => by simp [Node.countList]
  | c :: cs => by
    simp only [Node.countList]
    have h1 := Node_count_mono q q1 h c
    have h2 := Node_countList_mono q q1 h cs
    omega
end

theorem Document_getElementById_isNone (d : Document) :
    (d.getElementById animationsId).isNone = decide (d.count hasAnimationsId = 0) := by
  have h := Node_length_selectAllList_ident animationsId d.trees []
  unfold Document.getElementById Document.querySelector Document.querySelectorAll
  unfold Document.count
  have h2 : (fun x : Data => decide (x.attrs.lookup "id" = some animationsId)) = hasAnimationsId := rfl
  rw [h2] at h
  rw [← h]
  cases Node.selectAllList [[Simple.ident animationsId]] [] d.trees <;> simp

theorem Document_count_appendToHead (d : Document) (c : Node) (q : Data → Bool) :
    (d.appendToHead c).count q = d.count q + Node.count q c := by
  cases d with
  | mk head body =>
    cases head with
    | mk hd hcs =>
      simp only [Document.count, Document.appendToHead, Document.trees, Node.countList,
        Node.count, Node_countList_append, Node.data, Node.children]
      omega

theorem addFooterAnimationCSS_absent (w : World)
    (h : w.doc.getElementById animationsId = none) :
    addFooterAnimationCSS w =
      { w with nextId := w.nextId + 1, doc := w.doc.appendToHead (animationsStyle w.nextId) } := by
  have h1 : w.doc.getElementById "enhanced-footer-animations" = none := h
  simp [addFooterAnimationCSS, h1, animationsStyle, animationsId]

theorem addFooterAnimationCSS_present (w : World)
    (h : w.doc.getElementById animationsId ≠ none) :
    addFooterAnimationCSS w = w := by
  have h1 : w.doc.getElementById "enhanced-footer-animations" ≠ none := h
  cases h2 : w.doc.getElementById "enhanced-footer-animations" with
  | none => exact absurd h2 h1
  | some x => simp [addFooterAnimationCSS, h2]

theorem addFooterAnimationCSS_found (w : World) :
    (addFooterAnimationCSS w).doc.getElementById animationsId ≠ none := by
  by_cases h : w.doc.getElementById animationsId = none
  · rw [addFooterAnimationCSS_absent w h]
    intro hn
    have h3 := Document_getElementById_isNone (w.doc.appendToHead (animationsStyle w.nextId))
    have hn1 : (w.doc.appendToHead (animationsStyle w.nextId)).getElementById animationsId
        = none := hn
    rw [hn1, Document_count_appendToHead] at h3
    have h4 : Node.count hasAnimationsId (animationsStyle w.nextId) = 1 := by
      simp [animationsStyle, Node.count, Node.countList, hasAnimationsId, List.lookup]
    rw [h4] at h3
    simp at h3
  · rw [addFooterAnimationCSS_present w h]
    exact h

theorem addFooterAnimationCSS_idem (w : World) :
    addFooterAnimationCSS (addFooterAnimationCSS w) = addFooterAnimationCSS w :=
  addFooterAnimationCSS_present _ (addFooterAnimationCSS_found w)

theorem addFooterAnimationCSS_iterate (w : World) :
    ∀ n : Nat, addFooterAnimationCSS^[n + 1] w = addFooterAnimationCSS w
  | 0 => rfl
  | n + 1 => by
    rw [Function.iterate_succ_apply', addFooterAnimationCSS_iterate w n,
      addFooterAnimationCSS_idem]

/-- C5 as stated fails: on a page that already holds a `div` with the identifier
`enhanced-footer-animations`, two calls of `addFooterAnimationCSS` leave no style
element with that identifier at all. -/
theorem addFooterAnimationCSS_clash :
    (addFooterAnimationCSS (addFooterAnimationCSS (World.page clashDoc 3 .parsed))).doc.count
      isAnimationsStyle = 0 := by
  decide

/-- C5, amended: `addFooterAnimationCSS` is idempotent on every document state, and
`n ≥ 1` calls give the state one call gives; when no element carries the identifier
`enhanced-footer-animations` beforehand, one call appends the style element to
`head` and the document then holds exactly one element with that identifier, which
is that style element; when some element carries it already, the call changes
nothing. -/
theorem addFooterAnimationCSS_idempotent (w : World) :
    addFooterAnimationCSS (addFooterAnimationCSS w) = addFooterAnimationCSS w ∧
    (∀ n : Nat, 1 ≤ n → addFooterAnimationCSS^[n] w = addFooterAnimationCSS w) ∧
    (w.doc.getElementById animationsId = none →
      (addFooterAnimationCSS w).doc = w.doc.appendToHead (animationsStyle w.nextId) ∧
      (addFooterAnimationCSS w).doc.count hasAnimationsId = 1 ∧
      (addFooterAnimationCSS w).doc.count isAnimationsStyle = 1) ∧
    (w.doc.getElementById animationsId ≠ none → addFooterAnimationCSS w = w) := by
  refine ⟨addFooterAnimationCSS_idem w, ?_, ?_, addFooterAnimationCSS_present w⟩
  · intro n hn
    obtain ⟨k, rfl⟩ : ∃ k, n = k + 1 := ⟨n - 1, by omega⟩
    exact addFooterAnimationCSS_iterate w k
  · intro h
    have h0 : w.doc.count hasAnimationsId = 0 := by
      have := Document_getElementById_isNone w.doc
      rw [h] at this
      simpa using this
    have hle : ∀ d : Document, d.count isAnimationsStyle ≤ d.count hasAnimationsId := by
      intro d
      refine Node_countList_mono _ _ ?_ d.trees
      intro x hx
      simp only [isAnimationsStyle, Bool.and_eq_true] at hx
      exact hx.2
    rw [addFooterAnimationCSS_absent w h]
    refine ⟨rfl, ?_, ?_⟩
    · show (w.doc.appendToHead (animationsStyle w.nextId)).count hasAnimationsId = 1
      rw [Document_count_appendToHead, h0]
      simp [animationsStyle, Node.count, Node.countList, hasAnimationsId, List.lookup]
    · show (w.doc.appendToHead (animationsStyle w.nextId)).count isAnimationsStyle = 1
      have h1 := hle w.doc
      rw [Document_count_appendToHead]
      have h2 : Node.count isAnimationsStyle (animationsStyle w.nextId) = 1 := by
        simp [animationsStyle, Node.count, Node.countList, isAnimationsStyle, hasAnimationsId,
          List.lookup]
      omega

/-- On the sample page, which holds no element with the identifier, one call
injects the one style element. -/
theorem addFooterAnimationCSS_idempotent_witness :
    (samplePage .parsed).doc.getElementById animationsId = none ∧
    (addFooterAnimationCSS (samplePage .parsed)).doc.count isAnimationsStyle = 1 ∧
    addFooterAnimationCSS^[3] (samplePage .parsed) = addFooterAnimationCSS (samplePage .parsed) :=
  ⟨by decide,
   ((addFooterAnimationCSS_idempotent (samplePage .parsed)).2.2.1 (by decide)).2.2,
   (addFooterAnimationCSS_idempotent (samplePage .parsed)).2.1 3 (by decide)⟩

/-! ## Claim C6 -/

theorem foldl_footer (step : World → Nat → World)
    (h : ∀ w x, (step w x).footer = w.footer) :
    ∀ (xs : List Nat) (w : World), (xs.foldl step w).footer = w.footer
  | [], _ => rfl
  | x :: xs, w => by
    simp only [List.foldl_cons]
    rw [foldl_footer step h xs, h]

theorem setupIntersectionObserver_ok (w : World) (f : Nat) (hf : w.footer = some f) :
    ∃ w1, setupIntersectionObserver w = .ok w1 ∧ w1.footer = some f := by
  refine ⟨{ w with observed := w.observed ++ [f] }, ?_, hf⟩
  simp [setupIntersectionObserver, hf]

theorem setupSocialIconAnimations_ok (w : World) (f : Nat) (hf : w.footer = some f) :
    ∃ w1, setupSocialIconAnimations w = .ok w1 ∧ w1.footer = some f := by
  simp only [setupSocialIconAnimations, hf]
  refine ⟨_, rfl, ?_⟩
  rw [foldl_footer]
  · exact hf
  · intro w x; rfl

theorem setupRippleEffects_ok (w : World) (f : Nat) (hf : w.footer = some f) :
    ∃ w1, setupRippleEffects w = .ok w1 ∧ w1.footer = some f := by
  simp only [setupRippleEffects, hf]
  refine ⟨_, rfl, ?_⟩
  rw [foldl_footer]
  · exact hf
  · intro w x; rfl

theorem setupTooltips_ok (w : World) (f : Nat) (hf : w.footer = some f) :
    ∃ w1, setupTooltips w = .ok w1 ∧ w1.footer = some f := by
  simp only [setupTooltips, hf]
  refine ⟨_, rfl, ?_⟩
  rw [foldl_footer]
  · exact hf
  · intro w x
    cases w.doc.getAttribute x "title" with
    | none => rfl
    | some t =>
      simp only
      split <;> rfl

theorem addAriaLabel_footer (link : Nat) (w : World) :
    (addAriaLabel link w).footer = w.footer := by
  unfold addAriaLabel
  cases w.doc.getAttribute link "title" with
  | none => rfl
  | some t =>
    simp only
    split <;> rfl

theorem setupAccessibility_ok (w : World) (f : Nat) (hf : w.footer = some f) :
    ∃ w1, setupAccessibility w = .ok w1 ∧ w1.footer = some f := by
  have h1 : ((w.doc.querySelectorAllFrom f selSocialLinks).foldl
      (fun w link => addAriaLabel link w) w).footer = some f := by
    rw [foldl_footer _ (fun w x => addAriaLabel_footer x w)]
    exact hf
  have h2 : ∀ v : World, v.footer = some f →
      ∃ v1, setupFocusManagement v = .ok v1 ∧ v1.footer = some f := by
    intro v hv
    simp only [setupFocusManagement, hv]
    refine ⟨_, rfl, ?_⟩
    rw [foldl_footer]
    · exact hv
    · intro w x; rfl
  have h3 : ∀ v : World, v.footer = some f →
      ∃ v1, setupKeyboardNavigation v = .ok v1 ∧ v1.footer = some f := by
    intro v hv
    simp only [setupKeyboardNavigation, hv]
    refine ⟨_, rfl, ?_⟩
    rw [foldl_footer]
    · exact hv
    · intro w x; rfl
  obtain ⟨v1, e1, f1⟩ := h2 _ h1
  obtain ⟨v2, e2, f2⟩ := h3 v1 f1
  refine ⟨v2, ?_, f2⟩
  simp only [setupAccessibility, addAriaLabels, hf, bind, Except.bind, e1, e2]

/-- C6: when the document holds no `.enhanced-footer` element, the
`DOMContentLoaded` closure of `init` returns normally, `footer` is null and
everything else (document, listeners, timers, observer, element counter) is as
before, so no setup step has run; when there is such an element, `footer` is set
to it and the five setup steps run in order, each returning normally. -/
theorem onDOMContentLoaded_total (w : World) :
    (w.doc.querySelector selEnhancedFooter = none →
      onDOMContentLoaded w = .ok { w with footer := none } ∧
      (w.footer = none → onDOMContentLoaded w = .ok w)) ∧
    (∀ f, w.doc.querySelector selEnhancedFooter = some f →
      ∃ w1 w2 w3 w4 w5,
        setupIntersectionObserver { w with footer := some f } = .ok w1 ∧
        setupSocialIconAnimations w1 = .ok w2 ∧
        setupRippleEffects w2 = .ok w3 ∧
        setupTooltips w3 = .ok w4 ∧
        setupAccessibility w4 = .ok w5 ∧
        onDOMContentLoaded w = .ok w5 ∧ w5.footer = some f) := by
  constructor
  · intro h
    have h1 : onDOMContentLoaded w = .ok { w with footer := none } := by
      simp [onDOMContentLoaded, h]
    refine ⟨h1, ?_⟩
    intro hn
    rw [h1]
    cases w
    simp only at hn
    subst hn
    rfl
  · intro f h
    obtain ⟨w1, e1, f1⟩ := setupIntersectionObserver_ok { w with footer := some f } f rfl
    obtain ⟨w2, e2, f2⟩ := setupSocialIconAnimations_ok w1 f f1
    obtain ⟨w3, e3, f3⟩ := setupRippleEffects_ok w2 f f2
    obtain ⟨w4, e4, f4⟩ := setupTooltips_ok w3 f f3
    obtain ⟨w5, e5, f5⟩ := setupAccessibility_ok w4 f f4
    refine ⟨w1, w2, w3, w4, w5, e1, e2, e3, e4, e5, ?_, f5⟩
    simp only [onDOMContentLoaded, h, Option.isSome_some, if_true, bind, Except.bind, e1, e2, e3,
      e4, e5]

/-- The closure of `init` on a page without footer, and on the sample page. -/
theorem onDOMContentLoaded_total_witness :
    plainDoc.querySelector selEnhancedFooter = none ∧
    onDOMContentLoaded (construct (World.page plainDoc 4 .parsed))
      = .ok (construct (World.page plainDoc 4 .parsed)) ∧
    sampleDoc.querySelector selEnhancedFooter = some 2 ∧
    (∃ w5, onDOMContentLoaded sampleConstructed = .ok w5 ∧ w5.footer = some 2) :=
  ⟨by decide,
   ((onDOMContentLoaded_total (construct (World.page plainDoc 4 .parsed))).1 (by decide)).2 rfl,
   by decide,
   by
     obtain ⟨_, _, _, _, w5, _, _, _, _, _, h, hf⟩ :=
       (onDOMContentLoaded_total sampleConstructed).2 2 (by decide)
     exact ⟨w5, h, hf⟩⟩

/-! ## Claim C7 -/

/-- C7 fails on the code: with the script evaluated while the page is still being
parsed (`readyState` is `'loading'`), the closure of `init` is registered while
`DOMContentLoaded` is being dispatched, so it is never called: the page finishes
loading with `footer` null and no listener, although `.enhanced-footer` exists.
The same holds when the script runs after `DOMContentLoaded` (`'interactive'` or
`'complete'`); only a script that runs between the end of parsing and the event
gets its footer. -/
theorem init_listener_missed :
    sampleDoc.querySelector selEnhancedFooter = some 2 ∧
    (samplePage .parsing).phase.readyState = .loading ∧
    outcome (finishLoading (evalScript (samplePage .parsing))) = some (none, 0) ∧
    (samplePage .loaded).phase.readyState = .complete ∧
    outcome (finishLoading (evalScript (samplePage .loaded))) = some (none, 0) ∧
    (samplePage .domReady).phase.readyState = .interactive ∧
    outcome (finishLoading (evalScript (samplePage .domReady))) = some (none, 0) ∧
    (samplePage .parsed).phase.readyState = .interactive ∧
    outcome (finishLoading (evalScript (samplePage .parsed))) = some (some 2, 36) := by
  decide!

/-! ## Claim C1 -/

/-- C1 fails on the code: one click on the social link 8 of the sample page, set
up by the controller, appends two ripple elements to it, one per click listener;
the guard of `createRippleEffect` finds no `.ripple` because a ripple carries no
class.  One click on the plain footer link 5 appends one. -/
theorem click_appends_two_ripples :
    8 ∈ sampleDoc.querySelectorAllFrom 2 selInteractive ∧
    sampleReady.listeners.filter (fun l => decide (l.target = 8 ∧ l.type = EvType.click))
      = [⟨8, .click, .socialClick 8⟩, ⟨8, .click, .rippleClick 8⟩] ∧
    sampleReady.doc.countChildren 8 isRipple = 0 ∧
    (step (.event 8 .click (DomEvent.mouse 430 545)) sampleReady).doc.countChildren 8 isRipple
      = 2 ∧
    (step (.event 8 .click (DomEvent.mouse 430 545)) sampleReady).doc.querySelectorFrom 8 selRipple
      = none ∧
    (step (.event 5 .click (DomEvent.mouse 20 530)) sampleReady).doc.countChildren 5 isRipple
      = 1 := by
  decide!

/-! ## Claim C3 -/

theorem DocOnly_trans (a b c : World) (h1 : DocOnly a b) (h2 : DocOnly b c) : DocOnly a c := by
  unfold DocOnly at *
  rw [h2, h1]

theorem DocOnly_ofDoc (w : World) (d : Document) : DocOnly w { w with doc := d } := by
  unfold DocOnly
  rfl

theorem foldl_tooltipShow (tips : List Nat) :
    ∀ (e : DomEvent) (w : World),
      ((tips.map Handler.tooltipShow).foldl (fun s h => h.run s.1 s.2) (e, w)).1 = e ∧
      DocOnly w ((tips.map Handler.tooltipShow).foldl (fun s h => h.run s.1 s.2) (e, w)).2 := by
  induction tips with
  | nil =>
    intro e w
    refine ⟨rfl, ?_⟩
    unfold DocOnly
    rfl
  | cons t ts ih =>
    intro e w
    simp only [List.map_cons, List.foldl_cons, Handler.run]
    obtain ⟨h1, h2⟩ := ih e { w with doc := w.doc.setStyle t "opacity" (.text "1") }
    exact ⟨h1, DocOnly_trans _ _ _ (DocOnly_ofDoc w _) h2⟩

theorem Document_locate_isSome_appendChild (d : Document) (p : Nat) (c : Node)
    (h : (d.locate p).isSome) : ((d.appendChild p c).locate p).isSome := by
  cases hl : d.locate p with
  | none => simp [hl] at h
  | some r =>
    have h1 := Node_locateList_appendChild p c d.trees [] [] r hl
    have h2 : (d.appendChild p c).trees = Node.appendChildList p c d.trees := by
      simp [Document.appendChild, Document.trees, Node.appendChildList]
    unfold Document.locate
    rw [h2]
    cases h3 : Node.locateList p [] (Node.appendChildList p c d.trees) with
    | none => simp [h3] at h1
    | some r1 => rfl

theorem createFloatingParticle_doc (parent : Nat) (r1 r2 : ℚ) (w : World) :
    (createFloatingParticle parent r1 r2 w).doc =
      (w.doc.setStyle parent "position" (.text "relative")).appendChild parent
        (particleNode w.nextId r1 r2) := rfl

theorem createFloatingParticle_timers (parent : Nat) (r1 r2 : ℚ) (w : World) :
    (createFloatingParticle parent r1 r2 w).timers =
      w.timers ++ [⟨1000, w.now + 1000, .removeNode w.nextId⟩] := rfl

theorem createFloatingParticle_children (parent : Nat) (r1 r2 : ℚ) (w : World)
    (h : (w.doc.locate parent).isSome) :
    (createFloatingParticle parent r1 r2 w).doc.childrenOf parent =
      Node.appendChildList parent (particleNode w.nextId r1 r2)
        (Node.updateList parent
          (fun x => { x with style := setProp "position" (.text "relative") x.style })
          (w.doc.childrenOf parent)) ++ [particleNode w.nextId r1 r2] := by
  rw [createFloatingParticle_doc, Document_childrenOf_appendChild]
  · simp only [Document.setStyle, Document_childrenOf_update]
  · simpa only [Document.setStyle, Document_locate_isSome_update] using h

theorem createFloatingParticle_located (parent : Nat) (r1 r2 : ℚ) (w : World)
    (h : (w.doc.locate parent).isSome) :
    ((createFloatingParticle parent r1 r2 w).doc.locate parent).isSome := by
  rw [createFloatingParticle_doc]
  apply Document_locate_isSome_appendChild
  simpa only [Document.setStyle, Document_locate_isSome_update] using h

theorem createFloatingParticle_count (parent : Nat) (r1 r2 : ℚ) (w : World)
    (h : (w.doc.locate parent).isSome) :
    (createFloatingParticle parent r1 r2 w).doc.countChildren parent isParticle =
      w.doc.countChildren parent isParticle + 1 := by
  unfold Document.countChildren
  rw [createFloatingParticle_children parent r1 r2 w h, List.filter_append, List.length_append,
    Node_filter_appendChildList, Node_filter_updateList]
  · simp [particleNode, isParticle, Node.data]
  · intro a; rfl

/-- C3 as stated fails: the social link 10 of the sample page holds no `i` element,
and a mouseenter on it sets no timer and creates no particle. -/
theorem hover_without_icon :
    10 ∈ sampleDoc.querySelectorAllFrom 2 selSocialLinks ∧
    sampleReady.listeners.filter (fun l => decide (l.target = 10 ∧ l.type = EvType.mouseenter))
      = [⟨10, .mouseenter, .socialEnter 10⟩] ∧
    (step (.event 10 .mouseenter (DomEvent.mouse 470 530)) sampleReady).timers = [] ∧
    (step (.event 10 .mouseenter (DomEvent.mouse 470 530)) sampleReady).doc.count isParticle
      = 0 := by
  decide!

/-- C3, amended: on a social link whose mouseenter listeners are those the
controller registers (the closure of `setupSocialIconAnimations`, then the tooltip
closures), one mouseenter creates no element by itself; when the link holds an `i`
element it sets exactly three timers, with delays 0, 50 and 100 ms, and when it
holds none it sets no timer.  Each of the three timers, when it fires, appends
exactly one element of class `floating-particle` as last child of the link, so the
three of them add exactly three particle children. -/
theorem hover_particles (w : World) (link : Nat) (e : DomEvent) (tips : List Nat)
    (hreg : (w.listeners.filter
        (fun l => decide (l.target = link ∧ l.type = EvType.mouseenter))).map
          (fun l => l.handler) = .socialEnter link :: tips.map Handler.tooltipShow) :
    (step (.event link .mouseenter e) w).nextId = w.nextId ∧
    ((w.doc.querySelectorFrom link selIcon).isSome →
      (step (.event link .mouseenter e) w).timers = w.timers ++ spawnTimers w.now link) ∧
    ((w.doc.querySelectorFrom link selIcon).isSome = false →
      (step (.event link .mouseenter e) w).timers = w.timers) ∧
    (∀ (v : World) (r1 r2 : ℚ), (v.doc.locate link).isSome →
      ((TimerAction.spawnParticle link).run r1 r2 v).doc.childrenOf link
        = Node.appendChildList link (particleNode v.nextId r1 r2)
            (Node.updateList link
              (fun x => { x with style := setProp "position" (.text "relative") x.style })
              (v.doc.childrenOf link)) ++ [particleNode v.nextId r1 r2] ∧
      ((TimerAction.spawnParticle link).run r1 r2 v).doc.countChildren link isParticle
        = v.doc.countChildren link isParticle + 1) ∧
    (∀ (v : World) (r1 r2 r3 r4 r5 r6 : ℚ), (v.doc.locate link).isSome →
      ((TimerAction.spawnParticle link).run r5 r6
        ((TimerAction.spawnParticle link).run r3 r4
          ((TimerAction.spawnParticle link).run r1 r2 v))).doc.countChildren link isParticle
        = v.doc.countChildren link isParticle + 3) := by
  have hd : (step (.event link .mouseenter e) w) =
      ((tips.map Handler.tooltipShow).foldl (fun s h => h.run s.1 s.2)
        (e, addHoverGlow link (createFloatingIcons link w))).2 := by
    show (dispatchEvent link .mouseenter e w).2 = _
    unfold dispatchEvent
    rw [← List.foldl_map (fun l : Listener => l.handler) (fun s h => h.run s.1 s.2), hreg]
    rfl
  have h2 := (foldl_tooltipShow tips e (addHoverGlow link (createFloatingIcons link w))).2
  rw [← hd] at h2
  have hicons := createFloatingIcons_eq link w
  refine ⟨?_, ?_, ?_, ?_, ?_⟩
  · rw [h2]
    show (createFloatingIcons link w).nextId = w.nextId
    rw [hicons]; split <;> rfl
  · intro hi
    rw [h2]
    show (createFloatingIcons link w).timers = _
    rw [hicons, if_pos hi]
    rfl
  · intro hi
    rw [h2]
    show (createFloatingIcons link w).timers = _
    rw [hicons, if_neg (by simp [hi])]
  · intro v r1 r2 hl
    exact ⟨createFloatingParticle_children link r1 r2 v hl,
      createFloatingParticle_count link r1 r2 v hl⟩
  · intro v r1 r2 r3 r4 r5 r6 hl
    have l1 := createFloatingParticle_located link r1 r2 v hl
    have l2 := createFloatingParticle_located link r3 r4 _ l1
    show (createFloatingParticle link r5 r6 (createFloatingParticle link r3 r4
      (createFloatingParticle link r1 r2 v))).doc.countChildren link isParticle = _
    rw [createFloatingParticle_count _ _ _ _ l2, createFloatingParticle_count _ _ _ _ l1,
      createFloatingParticle_count _ _ _ _ hl]

/-- On the social link 8 of the sample page, which holds an icon and a tooltip,
one mouseenter sets the three timers, and three firings add three particles. -/
theorem hover_particles_witness :
    (sampleReady.listeners.filter
        (fun l => decide (l.target = 8 ∧ l.type = EvType.mouseenter))).map
          (fun l => l.handler) = .socialEnter 8 :: [13].map Handler.tooltipShow ∧
    (sampleReady.doc.querySelectorFrom 8 selIcon).isSome ∧
    (step (.event 8 .mouseenter (DomEvent.mouse 430 545)) sampleReady).timers
      = sampleReady.timers ++ spawnTimers sampleReady.now 8 ∧
    (sampleReady.doc.locate 8).isSome ∧
    ((TimerAction.spawnParticle 8).run 0 0
        ((TimerAction.spawnParticle 8).run 0 0
          ((TimerAction.spawnParticle 8).run 0 0 sampleReady))).doc.countChildren 8 isParticle
      = sampleReady.doc.countChildren 8 isParticle + 3 :=
  ⟨by decide!, by decide!,
   (hover_particles sampleReady 8 (DomEvent.mouse 430 545) [13] (by decide!)).2.1 (by decide!),
   by decide!,
   (hover_particles sampleReady 8 (DomEvent.mouse 430 545) [13] (by decide!)).2.2.2.2
     sampleReady 0 0 0 0 0 0 (by decide!)⟩

/-! ## Claim C9 -/

theorem Grows_refl (w : World) : Grows w w :=
  ⟨Nat.le_refl _, fun _ ht => Or.inl ht⟩

theorem Grows_trans (a b c : World) (h1 : Grows a b) (h2 : Grows b c) : Grows a c := by
  refine ⟨Nat.le_trans h1.1 h2.1, ?_⟩
  intro t ht
  rcases h2.2 t ht with hb | hn
  · rcases h1.2 t hb with ha | hn
    · exact Or.inl ha
    · exact Or.inr (fun n hn1 => Nat.lt_of_lt_of_le (hn n hn1) h2.1)
  · exact Or.inr hn

theorem mem_cleans (a : TimerAction) (n : Nat) : n ∈ a.cleans ↔ a = .removeNode n := by
  cases a <;> simp [TimerAction.cleans, eq_comm]

theorem fresh_def (w : World) :
    Fresh w ↔ ∀ t ∈ w.timers, ∀ n, t.action = .removeNode n → n < w.nextId := by
  unfold Fresh
  constructor
  · intro h t ht n hn
    exact h t ht n ((mem_cleans _ _).2 hn)
  · intro h t ht n hn
    exact h t ht n ((mem_cleans _ _).1 hn)

theorem Grows_fresh (w w1 : World) (h : Grows w w1) (hf : Fresh w) : Fresh w1 := by
  rw [fresh_def] at hf ⊢
  intro t ht n hn
  rcases h.2 t ht with h0 | h0
  · exact Nat.lt_of_lt_of_le (hf t h0 n hn) h.1
  · exact h0 n hn

theorem Grows_ofDoc (w : World) (d : Document) : Grows w { w with doc := d } :=
  ⟨Nat.le_refl _, fun _ ht => Or.inl ht⟩

theorem Grows_createClickRipple (e : DomEvent) (element : Nat) (w : World) :
    Grows w (createClickRipple e element w) := by
  refine ⟨Nat.le_succ _, ?_⟩
  intro t ht
  rw [createClickRipple_timers] at ht
  rcases List.mem_append.1 ht with h | h
  · exact Or.inl h
  · right
    intro n hn
    simp only [List.mem_singleton] at h
    subst h
    simp only [TimerAction.removeNode.injEq] at hn
    subst hn
    exact Nat.lt_succ_self _

theorem Grows_createFloatingParticle (parent : Nat) (r1 r2 : ℚ) (w : World) :
    Grows w (createFloatingParticle parent r1 r2 w) := by
  refine ⟨Nat.le_succ _, ?_⟩
  intro t ht
  rw [createFloatingParticle_timers] at ht
  rcases List.mem_append.1 ht with h | h
  · exact Or.inl h
  · right
    intro n hn
    simp only [List.mem_singleton] at h
    subst h
    simp only [TimerAction.removeNode.injEq] at hn
    subst hn
    exact Nat.lt_succ_self _

theorem Grows_addTimers (w : World) (ts : List Timer)
    (h : ∀ t ∈ ts, ∀ n, t.action ≠ .removeNode n) : Grows w (addTimers w ts) := by
  refine ⟨Nat.le_refl _, ?_⟩
  intro t ht
  rcases List.mem_append.1 ht with h1 | h1
  · exact Or.inl h1
  · exact Or.inr (fun n hn => absurd hn (h t h1 n))

theorem Grows_setTimeout (a : TimerAction) (d : Nat) (w : World)
    (h : ∀ n, a ≠ .removeNode n) : Grows w (setTimeout a d w) := by
  refine Grows_addTimers w [⟨d, w.now + d, a⟩] ?_
  intro t ht n
  simp only [List.mem_singleton] at ht
  subst ht
  exact h n

theorem Grows_createFloatingIcons (element : Nat) (w : World) :
    Grows w (createFloatingIcons element w) := by
  rw [createFloatingIcons_eq]
  split
  · refine Grows_addTimers w _ ?_
    intro t ht n
    simp only [List.mem_cons, List.mem_singleton, List.not_mem_nil, or_false] at ht
    rcases ht with h | h | h <;> subst h <;> simp
  · exact Grows_refl w

theorem Grows_handler (h : Handler) (e : DomEvent) (w : World) : Grows w (h.run e w).2 := by
  cases h with
  | socialEnter link =>
    exact Grows_trans _ _ _ (Grows_createFloatingIcons link w) (Grows_ofDoc _ _)
  | socialLeave link => exact Grows_ofDoc _ _
  | socialClick link => exact Grows_createClickRipple e link w
  | rippleClick element =>
    show Grows w (createRippleEffect e element w)
    unfold createRippleEffect
    split
    · exact Grows_createClickRipple e element w
    · exact Grows_refl w
  | tooltipShow t => exact Grows_ofDoc _ _
  | tooltipHide t => exact Grows_ofDoc _ _
  | focusOutline x => exact Grows_ofDoc _ _
  | blurOutline x => exact Grows_ofDoc _ _
  | keyActivate link =>
    show Grows w (onKeydown link e w).2
    unfold onKeydown
    split
    · exact Grows_trans _ _ _ (Grows_createClickRipple _ link w)
        (Grows_setTimeout _ _ _ (by simp))
    · exact Grows_refl w

theorem Grows_foldl_handlers (ls : List Listener) :
    ∀ (e : DomEvent) (w : World),
      Grows w (ls.foldl (fun s l => l.handler.run s.1 s.2) (e, w)).2 := by
  induction ls with
  | nil => intro e w; exact Grows_refl w
  | cons l ls ih =>
    intro e w
    simp only [List.foldl_cons]
    exact Grows_trans _ _ _ (Grows_handler l.handler e w) (ih _ _)

theorem Grows_dispatchEvent (target : Nat) (type : EvType) (e : DomEvent) (w : World) :
    Grows w (dispatchEvent target type e w).2 :=
  Grows_foldl_handlers _ e w

theorem Grows_action (a : TimerAction) (r1 r2 : ℚ) (w : World) : Grows w (a.run r1 r2 w) := by
  cases a with
  | entrance x => exact Grows_ofDoc _ _
  | spawnParticle x => exact Grows_createFloatingParticle x r1 r2 w
  | removeNode x =>
    show Grows w (removeIfAttached x w)
    unfold removeIfAttached
    split
    · exact Grows_ofDoc _ _
    · exact Grows_refl w
  | clickLink x => exact Grows_dispatchEvent x .click _ w

/-- The pending timers after the callback of a timer, in terms of those before. -/
theorem action_timers (a : TimerAction) (r1 r2 : ℚ) (w : World) :
    ∃ extra, (a.run r1 r2 w).timers = w.timers ++ extra := by
  cases a with
  | entrance x => exact ⟨[], by simp [TimerAction.run]⟩
  | spawnParticle x => exact ⟨_, createFloatingParticle_timers x r1 r2 w⟩
  | removeNode x =>
    refine ⟨[], ?_⟩
    show (removeIfAttached x w).timers = _
    unfold removeIfAttached
    split <;> simp
  | clickLink x => exact (Extends_dispatchEvent x .click _ w).2.2.2.2.2

theorem fireTimer_timers (i : Nat) (r1 r2 : ℚ) (w : World) :
    ∃ extra, (fireTimer i r1 r2 w).timers = w.timers.eraseIdx i ++ extra := by
  unfold fireTimer
  cases h : w.timers.get? i with
  | none =>
    refine ⟨[], ?_⟩
    have : w.timers.length ≤ i := by
      rw [List.get?_eq_none] at h
      exact h
    simp [List.eraseIdx_of_length_le this]
  | some t =>
    exact action_timers t.action r1 r2 { w with timers := w.timers.eraseIdx i, now := max w.now t.due }

theorem Grows_fireTimer (i : Nat) (r1 r2 : ℚ) (w : World) : Grows w (fireTimer i r1 r2 w) := by
  unfold Footer.fireTimer
  cases h : w.timers.get? i with
  | none => exact Grows_refl w
  | some t =>
    refine Grows_trans w { w with timers := w.timers.eraseIdx i, now := max w.now t.due } _
      ?_ (Grows_action t.action r1 r2 _)
    refine ⟨Nat.le_refl _, ?_⟩
    intro t1 ht1
    exact Or.inl (List.mem_of_mem_eraseIdx ht1)

theorem entranceTimers_action (now delay : Nat) (xs : List Nat) :
    ∀ k, ∀ t ∈ entranceTimers now delay k xs, ∀ n, t.action ≠ .removeNode n := by
  induction xs with
  | nil => intro k t ht; simp [entranceTimers] at ht
  | cons x xs ih =>
    intro k t ht n
    simp only [entranceTimers, List.mem_cons] at ht
    rcases ht with h | h
    · subst h; simp
    · exact ih (k + 1) t h n

theorem onIntersect_result (entries : List Bool) :
    ∀ (w : World),
      orElse w (onIntersect entries w) = w ∨
      ∃ f ts, (∀ t ∈ ts, ∀ n, t.action ≠ .removeNode n) ∧
        onIntersect entries w = .ok { addTimers w ts with isVisible := true } ∧
        w.footer = some f := by
  intro w
  by_cases hv : w.isVisible = true
  · left; rw [onIntersect_visible entries w hv]; rfl
  · cases hf : w.footer with
    | none =>
      left
      unfold onIntersect
      induction entries with
      | nil => rfl
      | cons b bs ih =>
        cases b with
        | false =>
          simp only [List.foldlM_cons, Bool.false_and]
          exact ih
        | true =>
          have hv1 : w.isVisible = false := by simpa using hv
          simp [List.foldlM_cons, hv1, triggerEntranceAnimation, hf, orElse, bind, Except.bind,
            Except.map]
    | some f =>
      have hv1 : w.isVisible = false := by simpa using hv
      rw [onIntersect_hidden entries w f hf hv1]
      by_cases ha : entries.any id = true
      · right
        refine ⟨f, entranceTimers w.now w.animationDelay 0 (sectionsOf w f),
          entranceTimers_action _ _ _ 0, ?_, rfl⟩
        simp [ha, entered]
      · left
        simp [ha, orElse]

theorem Grows_step (s : Step) (w : World) : Grows w (step s w) := by
  cases s with
  | event target type e => exact Grows_dispatchEvent target type e w
  | timer i r1 r2 => exact Grows_fireTimer i r1 r2 w
  | intersect entries =>
    show Grows w (orElse w (onIntersect entries w))
    rcases onIntersect_result entries w with h | ⟨f, ts, hts, h, _⟩
    · rw [h]; exact Grows_refl w
    · rw [h]
      exact Grows_trans _ _ _ (Grows_addTimers w ts hts) ⟨Nat.le_refl _, fun _ ht => Or.inl ht⟩
  | advance t => exact ⟨Nat.le_refl _, fun _ ht => Or.inl ht⟩

theorem Fresh_run (steps : List Step) : ∀ w : World, Fresh w → Fresh (run steps w) := by
  induction steps with
  | nil => intro w h; exact h
  | cons s ss ih =>
    intro w h
    exact ih _ (Grows_fresh _ _ (Grows_step s w) h)

theorem Fresh_cleanupCount (w : World) (h : Fresh w) : cleanupCount w.timers w.nextId = 0 := by
  rw [fresh_def] at h
  unfold Footer.cleanupCount
  rw [List.length_eq_zero, List.filter_eq_nil_iff]
  intro t ht
  simp only [decide_eq_true_eq]
  intro ha
  exact Nat.lt_irrefl _ (h t ht _ ha)

theorem step_timers (s : Step) (w : World) :
    ∃ extra, (step s w).timers =
      (match s with
        | .timer i _ _ => w.timers.eraseIdx i
        | _ => w.timers) ++ extra := by
  cases s with
  | event target type e => exact (Extends_dispatchEvent target type e w).2.2.2.2.2
  | timer i r1 r2 => exact fireTimer_timers i r1 r2 w
  | intersect entries =>
    show ∃ extra, (orElse w (onIntersect entries w)).timers = w.timers ++ extra
    rcases onIntersect_result entries w with h | ⟨f, ts, _, h, _⟩
    · rw [h]; exact ⟨[], by simp⟩
    · rw [h]; exact ⟨ts, rfl⟩
  | advance t => exact ⟨[], by simp [step]⟩

theorem removeIfAttached_parentNode (n : Nat) (w : World) :
    (removeIfAttached n w).doc.parentNode n = none := by
  unfold removeIfAttached
  by_cases h : (w.doc.parentNode n).isSome = true
  · simp only [h, if_true]
    exact Document_parentNode_detach w.doc n
  · simp only [h]
    cases h1 : w.doc.parentNode n with
    | none => simp [h1]
    | some x => simp [h1] at h

theorem action_now (a : TimerAction) (r1 r2 : ℚ) (w : World) : (a.run r1 r2 w).now = w.now := by
  cases a with
  | entrance x => rfl
  | spawnParticle x => rfl
  | removeNode x =>
    show (removeIfAttached x w).now = _
    unfold removeIfAttached
    split <;> rfl
  | clickLink x => exact (Extends_dispatchEvent x .click _ w).2.2.2.2.1

mutual
/-- The ancestors `locate` returns end with the ancestors the search started with. -/
theorem Node_locate_anc (n : Nat) :
    ∀ (t : Node) (anc : List Data) (r : List Data × Node),
      Node.locate n anc t = some r → ∃ pre, r.1 = pre ++ anc
  | .mk d cs, anc, r, h => by
    simp only [Node.locate] at h
    by_cases hd : d.nid = n
    · simp only [hd, if_true, Option.some.injEq] at h
      subst h
      exact ⟨[], rfl⟩
    · simp only [hd, if_false] at h
      obtain ⟨pre, hp⟩ := Node_locateList_anc n cs (d :: anc) r h
      exact ⟨pre ++ [d], by simp [hp]⟩
/-- The list form of `Node_locate_anc`. -/
theorem Node_locateList_anc (n : Nat) :
    ∀ (cs : List Node) (anc : List Data) (r : List Data × Node),
      Node.locateList n anc cs = some r → ∃ pre, r.1 = pre ++ anc
  | [], _, _, h => by simp [Node.locateList] at h
  | c :: cs, anc, r, h => by
    simp only [Node.locateList] at h
    cases hc : Node.locate n anc c with
    | some r1 =>
      rw [hc] at h
      simp only [Option.some.injEq] at h
      subst h
      exact Node_locate_anc n c anc r1 hc
    | none =>
      rw [hc] at h
      exact Node_locateList_anc n cs anc r h
end

mutual
/-- An element absent from a subtree is absent after a leaf with another identity
is appended. -/
theorem Node_locate_none_appendChild (n p : Nat) (c : Node)
    (hc : ∀ anc, Node.locate n anc c = none) :
    ∀ (t : Node) (anc : List Data),
      Node.locate n anc t = none → Node.locate n anc (Node.appendChild p c t) = none
  | .mk d cs, anc, h => by
    simp only [Node.locate] at h
    simp only [Node.appendChild, Node.locate]
    by_cases hd : d.nid = n
    · simp [hd] at h
    · simp only [hd, if_false] at h
      simp only [hd, if_false, Node_locateList_append,
        Node_locateList_none_appendChild n p c hc cs (d :: anc) h]
      by_cases hp : d.nid = p
      · simp [hp, Node.locateList, hc]
      · simp [hp, Node.locateList]
/-- The list form of `Node_locate_none_appendChild`. -/
theorem Node_locateList_none_appendChild (n p : Nat) (c : Node)
    (hc : ∀ anc, Node.locate n anc c = none) :
    ∀ (cs : List Node) (anc : List Data),
      Node.locateList n anc cs = none →
      Node.locateList n anc (Node.appendChildList p c cs) = none
  | [], _, _ => by simp [Node.appendChildList, Node.locateList]
  | x :: cs, anc, h => by
    simp only [Node.locateList] at h
    simp only [Node.appendChildList, Node.locateList]
    cases hx : Node.locate n anc x with
    | some r => simp [hx] at h
    | none =>
      rw [hx] at h
      rw [Node_locate_none_appendChild n p c hc x anc hx]
      exact Node_locateList_none_appendChild n p c hc cs anc h
end

mutual
/-- An element absent from a subtree is absent after `detach`. -/
theorem Node_locate_none_detach (n m : Nat) :
    ∀ (t : Node) (anc : List Data),
      Node.locate n anc t = none → Node.locate n anc (Node.detach m t) = none
  | .mk d cs, anc, h => by
    simp only [Node.locate] at h
    simp only [Node.detach, Node.locate]
    by_cases hd : d.nid = n
    · simp [hd] at h
    · simp only [hd, if_false] at h
      simp only [hd, if_false]
      exact Node_locateList_none_detach n m cs (d :: anc) h
/-- The list form of `Node_locate_none_detach`. -/
theorem Node_locateList_none_detach (n m : Nat) :
    ∀ (cs : List Node) (anc : List Data),
      Node.locateList n anc cs = none → Node.locateList n anc (Node.detachList m cs) = none
  | [], _, _ => by simp [Node.detachList, Node.locateList]
  | x :: cs, anc, h => by
    simp only [Node.locateList] at h
    simp only [Node.detachList]
    cases hx : Node.locate n anc x with
    | some r => simp [hx] at h
    | none =>
      rw [hx] at h
      by_cases hm : x.data.nid = m
      · simp only [hm, if_true]
        exact Node_locateList_none_detach n m cs anc h
      · simp only [hm, if_false, Node.locateList, Node_locate_none_detach n m x anc hx]
        exact Node_locateList_none_detach n m cs anc h
end

theorem Node_locate_none_update (n x : Nat) (f : Data → Data) (t : Node) (anc : List Data)
    (h : Node.locate n anc t = none) : Node.locate n anc (Node.update x f t) = none := by
  have h1 := Node_locate_update n x f t anc anc
  rw [h] at h1
  cases h2 : Node.locate n anc (Node.update x f t) with
  | none => rfl
  | some r => simp [h2] at h1

/-- The parent of `n` inside one top-level subtree, searched without ancestors. -/
theorem Node_parent_none_iff (n : Nat) (t : Node) :
    ((Node.locate n [] t).bind (fun r => r.1.head?.map (fun a => a.nid)) = none) ↔
      (t.data.nid = n ∨ Node.locate n [] t = none) := by
  cases t with
  | mk d cs =>
    simp only [Node.locate, Node.data]
    by_cases hd : d.nid = n
    · simp [hd]
    · simp only [hd, if_false, false_or]
      cases hl : Node.locateList n [d] cs with
      | none => simp
      | some r =>
        obtain ⟨pre, hp⟩ := Node_locateList_anc n cs [d] r hl
        have : r.1.head? ≠ none := by
          rw [hp]
          cases pre <;> simp
        cases hh : r.1.head? with
        | none => exact absurd hh this
        | some a => simp [hh]

theorem Document_parentNode_none_iff (d : Document) (n : Nat) :
    d.parentNode n = none ↔
      (d.head.data.nid = n ∨
        (Node.locate n [] d.head = none ∧
          (d.body.data.nid = n ∨ Node.locate n [] d.body = none))) := by
  have hh := Node_parent_none_iff n d.head
  have hb := Node_parent_none_iff n d.body
  unfold Document.parentNode Document.locate Document.trees
  simp only [Node.locateList]
  cases h1 : Node.locate n [] d.head with
  | some r =>
    rw [h1] at hh
    simp only [Option.some_bind] at hh ⊢
    rw [hh]
    simp
  | none =>
    simp only
    cases h2 : Node.locate n [] d.body with
    | some r =>
      rw [h2] at hb
      simp only [Option.some_bind] at hb ⊢
      rw [hb]
      constructor
      · intro h
        rcases h with h | h
        · exact Or.inr ⟨trivial, Or.inl h⟩
        · simp at h
      · intro h
        rcases h with h | ⟨_, h | h⟩
        · exfalso
          cases hd : d.head with
          | mk a cs =>
            rw [hd] at h1 h
            simp only [Node.data] at h
            simp [Node.locate, h] at h1
        · exact Or.inl h
        · simp at h
    | none => simp

/-- A map of the two subtrees that keeps the identity of a root and the absence of
`n` keeps `n` without parent. -/
theorem parentNode_none_map (d : Document) (g : Node → Node) (n : Nat)
    (hroot : ∀ t : Node, (g t).data.nid = t.data.nid)
    (habs : ∀ t : Node, Node.locate n [] t = none → Node.locate n [] (g t) = none)
    (h : d.parentNode n = none) : (Document.mk (g d.head) (g d.body)).parentNode n = none := by
  rw [Document_parentNode_none_iff] at h ⊢
  simp only [hroot]
  rcases h with h | ⟨h1, h2⟩
  · exact Or.inl h
  · refine Or.inr ⟨habs _ h1, ?_⟩
    rcases h2 with h2 | h2
    · exact Or.inl h2
    · exact Or.inr (habs _ h2)

theorem parentNode_none_update (d : Document) (x n : Nat) (f : Data → Data)
    (h : d.parentNode n = none) : (d.update x f).parentNode n = none :=
  parentNode_none_map d (Node.update x f) n (Node_nid_update x f)
    (fun t ht => Node_locate_none_update n x f t [] ht) h

theorem parentNode_none_detach (d : Document) (m n : Nat)
    (h : d.parentNode n = none) : (d.detach m).parentNode n = none :=
  parentNode_none_map d (Node.detach m) n (fun t => by rw [Node_data_detach])
    (fun t ht => Node_locate_none_detach n m t [] ht) h

theorem parentNode_none_appendChild (d : Document) (p n : Nat) (c : Data) (hc : c.nid ≠ n)
    (h : d.parentNode n = none) : (d.appendChild p (.mk c [])).parentNode n = none :=
  parentNode_none_map d (Node.appendChild p (.mk c [])) n
    (fun t => by rw [Node_data_appendChild])
    (fun t ht => Node_locate_none_appendChild n p (.mk c [])
      (fun anc => by simp [Node.locate, hc, Node.locateList]) t [] ht) h

theorem Stays_refl (n : Nat) (w : World) : Stays n w w :=
  ⟨Nat.le_refl _, fun _ h => h⟩

theorem Stays_trans (n : Nat) (a b c : World) (h1 : Stays n a b) (h2 : Stays n b c) :
    Stays n a c :=
  ⟨Nat.le_trans h1.1 h2.1,
   fun hn h => h2.2 (Nat.lt_of_lt_of_le hn h1.1) (h1.2 hn h)⟩

theorem Stays_update (n x : Nat) (f : Data → Data) (w : World) :
    Stays n w { w with doc := w.doc.update x f } :=
  ⟨Nat.le_refl _, fun _ h => parentNode_none_update w.doc x n f h⟩

theorem Stays_setTimeout (n : Nat) (a : TimerAction) (d : Nat) (w : World) :
    Stays n w (setTimeout a d w) :=
  ⟨Nat.le_refl _, fun _ h => h⟩

theorem Stays_createClickRipple (n : Nat) (e : DomEvent) (element : Nat) (w : World) :
    Stays n w (createClickRipple e element w) := by
  refine ⟨Nat.le_succ _, ?_⟩
  intro hn h
  rw [createClickRipple_doc]
  apply parentNode_none_appendChild
  · exact Nat.ne_of_gt hn
  · exact parentNode_none_update _ _ _ _ (parentNode_none_update _ _ _ _ h)

theorem Stays_createFloatingParticle (n parent : Nat) (r1 r2 : ℚ) (w : World) :
    Stays n w (createFloatingParticle parent r1 r2 w) := by
  refine ⟨Nat.le_succ _, ?_⟩
  intro hn h
  rw [createFloatingParticle_doc]
  apply parentNode_none_appendChild
  · exact Nat.ne_of_gt hn
  · exact parentNode_none_update _ _ _ _ h

theorem Stays_createFloatingIcons (n element : Nat) (w : World) :
    Stays n w (createFloatingIcons element w) := by
  rw [createFloatingIcons_eq]
  split
  · exact ⟨Nat.le_refl _, fun _ h => h⟩
  · exact Stays_refl n w

theorem Stays_handler (n : Nat) (h : Handler) (e : DomEvent) (w : World) :
    Stays n w (h.run e w).2 := by
  cases h with
  | socialEnter link =>
    refine Stays_trans n _ _ _ (Stays_createFloatingIcons n link w) ?_
    exact Stays_trans n _ _ _ (Stays_update n link _ _) (Stays_update n link _ _)
  | socialLeave link =>
    exact Stays_trans n _ _ _ (Stays_update n link _ w) (Stays_update n link _ _)
  | socialClick link => exact Stays_createClickRipple n e link w
  | rippleClick element =>
    show Stays n w (createRippleEffect e element w)
    unfold createRippleEffect
    split
    · exact Stays_createClickRipple n e element w
    · exact Stays_refl n w
  | tooltipShow t => exact Stays_update n t _ w
  | tooltipHide t => exact Stays_update n t _ w
  | focusOutline x =>
    exact Stays_trans n _ _ _ (Stays_update n x _ w) (Stays_update n x _ _)
  | blurOutline x =>
    exact Stays_trans n _ _ _ (Stays_update n x _ w) (Stays_update n x _ _)
  | keyActivate link =>
    show Stays n w (onKeydown link e w).2
    unfold onKeydown
    split
    · exact Stays_trans n _ _ _ (Stays_createClickRipple n _ link w) (Stays_setTimeout n _ _ _)
    · exact Stays_refl n w

theorem Stays_foldl_handlers (n : Nat) (ls : List Listener) :
    ∀ (e : DomEvent) (w : World),
      Stays n w (ls.foldl (fun s l => l.handler.run s.1 s.2) (e, w)).2 := by
  induction ls with
  | nil => intro e w; exact Stays_refl n w
  | cons l ls ih =>
    intro e w
    simp only [List.foldl_cons]
    exact Stays_trans n _ _ _ (Stays_handler n l.handler e w) (ih _ _)

theorem Stays_dispatchEvent (n target : Nat) (type : EvType) (e : DomEvent) (w : World) :
    Stays n w (dispatchEvent target type e w).2 :=
  Stays_foldl_handlers n _ e w

theorem Stays_action (n : Nat) (a : TimerAction) (r1 r2 : ℚ) (w : World) :
    Stays n w (a.run r1 r2 w) := by
  cases a with
  | entrance x =>
    exact Stays_trans n _ _ _ (Stays_update n x _ w) (Stays_update n x _ _)
  | spawnParticle x => exact Stays_createFloatingParticle n x r1 r2 w
  | removeNode x =>
    show Stays n w (removeIfAttached x w)
    unfold removeIfAttached
    split
    · exact ⟨Nat.le_refl _, fun _ h => parentNode_none_detach w.doc x n h⟩
    · exact Stays_refl n w
  | clickLink x => exact Stays_dispatchEvent n x .click _ w

theorem Stays_fireTimer (n i : Nat) (r1 r2 : ℚ) (w : World) :
    Stays n w (fireTimer i r1 r2 w) := by
  unfold Footer.fireTimer
  cases h : w.timers.get? i with
  | none => exact Stays_refl n w
  | some t =>
    exact Stays_trans n w { w with timers := w.timers.eraseIdx i, now := max w.now t.due } _
      ⟨Nat.le_refl _, fun _ h => h⟩ (Stays_action n t.action r1 r2 _)

theorem Stays_step (n : Nat) (s : Step) (w : World) : Stays n w (step s w) := by
  cases s with
  | event target type e => exact Stays_dispatchEvent n target type e w
  | timer i r1 r2 => exact Stays_fireTimer n i r1 r2 w
  | intersect entries =>
    show Stays n w (orElse w (onIntersect entries w))
    rcases onIntersect_result entries w with h | ⟨f, ts, _, h, _⟩
    · rw [h]; exact Stays_refl n w
    · rw [h]; exact ⟨Nat.le_refl _, fun _ h => h⟩
  | advance t => exact ⟨Nat.le_refl _, fun _ h => h⟩

theorem Stays_run (n : Nat) (steps : List Step) :
    ∀ w : World, Stays n w (run steps w) := by
  induction steps with
  | nil => intro w; exact Stays_refl n w
  | cons s ss ih =>
    intro w
    exact Stays_trans n _ _ _ (Stays_step n s w) (ih _)

/-- One step keeps the alternative: the cleanup timer of `n` is pending, or `n` has
no parent. -/
theorem PendingOrGone_step (c : Timer) (n : Nat) (hc : c.action = .removeNode n) (s : Step)
    (v : World) (hn : n < v.nextId) (h : PendingOrGone c n v) :
    n < (step s v).nextId ∧ PendingOrGone c n (step s v) := by
  have hst := Stays_step n s v
  refine ⟨Nat.lt_of_lt_of_le hn hst.1, ?_⟩
  rcases h with h | h
  · cases s with
    | timer i r1 r2 =>
      show PendingOrGone c n (fireTimer i r1 r2 v)
      unfold fireTimer
      cases hi : v.timers.get? i with
      | none => exact Or.inl h
      | some t =>
        simp only
        by_cases htc : t = c
        · right
          subst htc
          rw [hc]
          exact removeIfAttached_parentNode n _
        · left
          obtain ⟨extra, he⟩ := action_timers t.action r1 r2
            { v with timers := v.timers.eraseIdx i, now := max v.now t.due }
          rw [he]
          apply List.mem_append_left
          obtain ⟨j, hj⟩ := List.mem_iff_getElem?.1 h
          rw [List.mem_eraseIdx_iff_getElem?]
          refine ⟨j, ?_, hj⟩
          intro hji
          subst hji
          rw [List.get?_eq_getElem?] at hi
          rw [hi] at hj
          exact htc (Option.some.inj hj)
    | event target type e =>
      obtain ⟨extra, he⟩ := step_timers (.event target type e) v
      exact Or.inl (by rw [he]; exact List.mem_append_left _ h)
    | intersect entries =>
      obtain ⟨extra, he⟩ := step_timers (.intersect entries) v
      exact Or.inl (by rw [he]; exact List.mem_append_left _ h)
    | advance t => exact Or.inl h
  · exact Or.inr (hst.2 hn h)

theorem PendingOrGone_run (c : Timer) (n : Nat) (hc : c.action = .removeNode n)
    (steps : List Step) :
    ∀ v : World, n < v.nextId → PendingOrGone c n v → PendingOrGone c n (run steps v) := by
  induction steps with
  | nil => intro v _ h; exact h
  | cons s ss ih =>
    intro v hn h
    obtain ⟨h1, h2⟩ := PendingOrGone_step c n hc s v hn h
    exact ih _ h1 h2

/-- When no pending timer is overdue and the clock has passed the due time of the
cleanup timer, the element has no parent. -/
theorem gone_when_punctual (c : Timer) (n : Nat) (v : World) (h : PendingOrGone c n v)
    (hp : Punctual v) (hlate : c.due < v.now) : v.doc.parentNode n = none := by
  rcases h with h | h
  · exact absurd (hp c h) (Nat.not_le.2 hlate)
  · exact h

/-- C9 as stated fails: the code only sets a timer, and nothing makes the platform
run it on time.  After a click at clock value 0 with the clock moved on to 5000 and
the timer not yet run, the ripple is still a child of its link; likewise the
particle of a hover at 0. -/
theorem cleanup_can_be_late :
    sampleReady.now = 0 ∧
    lateClick.now = 5000 ∧
    lateClick.timers = [⟨600, 600, .removeNode 15⟩] ∧
    lateClick.doc.parentNode 15 = some 5 ∧
    lateClick.doc.countChildren 5 isRipple = 1 ∧
    lateHover.now = 5000 ∧
    lateHover.doc.parentNode 15 = some 8 ∧
    lateHover.doc.countChildren 8 isParticle = 1 := by
  decide!

/-- C9, amended: in a state where every pending cleanup timer is for an element
already created (which holds when no timer is pending and is kept by every step of
the page), a particle appended by `createFloatingParticle` and a ripple appended by
`createClickRipple` get, in the same call, exactly one pending cleanup timer, with
delay 1000 ms and 600 ms; no step of the page removes a pending timer other than
the one that fires; when a cleanup timer has fired its element has no parent, and
if the element had none already the cleanup changes nothing.  Through every run of
the page the cleanup timer stays pending until the element has no parent, and the
element then stays without parent.  Hence at any moment at which no pending timer
is overdue, a ripple has no parent once more than 600 ms have passed since its
click, and a particle none once more than 1000 ms have passed since the particle
timer fired; the particle timers of a hover at `t` are due by `t + 100`, so a
particle whose timer fired on time has no parent at any such moment later than
`t + 1100`. -/
theorem cleanup_when_punctual (w : World) (hfresh : Fresh w) :
    (∀ (parent : Nat) (r1 r2 : ℚ),
      (createFloatingParticle parent r1 r2 w).timers
        = w.timers ++ [⟨1000, w.now + 1000, .removeNode w.nextId⟩] ∧
      cleanupCount (createFloatingParticle parent r1 r2 w).timers w.nextId = 1 ∧
      ((w.doc.locate parent).isSome →
        ((createFloatingParticle parent r1 r2 w).doc.childrenOf parent).getLast?
          = some (particleNode w.nextId r1 r2))) ∧
    (∀ (e : DomEvent) (element : Nat),
      (createClickRipple e element w).timers
        = w.timers ++ [⟨600, w.now + 600, .removeNode w.nextId⟩] ∧
      cleanupCount (createClickRipple e element w).timers w.nextId = 1 ∧
      ((w.doc.locate element).isSome →
        ((createClickRipple e element w).doc.childrenOf element).getLast?
          = some (.mk (rippleData w.nextId e (w.doc.getBoundingClientRect element)) []))) ∧
    (∀ s : Step, ∃ extra, (step s w).timers =
      (match s with
        | .timer i _ _ => w.timers.eraseIdx i
        | _ => w.timers) ++ extra) ∧
    (∀ steps : List Step, Fresh (run steps w)) ∧
    (∀ (n : Nat) (r1 r2 : ℚ), ((TimerAction.removeNode n).run r1 r2 w).doc.parentNode n = none) ∧
    (∀ (n : Nat) (r1 r2 : ℚ), w.doc.parentNode n = none →
      (TimerAction.removeNode n).run r1 r2 w = w) ∧
    (∀ (i : Nat) (t : Timer) (n : Nat) (r1 r2 : ℚ), w.timers.get? i = some t →
      t.action = .removeNode n → w.now ≤ t.due →
      (fireTimer i r1 r2 w).now = t.due ∧ (fireTimer i r1 r2 w).doc.parentNode n = none) ∧
    (∀ (i : Nat) (t : Timer) (p : Nat) (r1 r2 : ℚ), w.timers.get? i = some t →
      t.action = .spawnParticle p → w.now ≤ t.due →
      (fireTimer i r1 r2 w).timers
        = w.timers.eraseIdx i ++ [⟨1000, t.due + 1000, .removeNode w.nextId⟩]) ∧
    (∀ (e : DomEvent) (element : Nat) (steps : List Step),
      PendingOrGone ⟨600, w.now + 600, .removeNode w.nextId⟩ w.nextId
        (run steps (createClickRipple e element w)) ∧
      (Punctual (run steps (createClickRipple e element w)) →
        w.now + 600 < (run steps (createClickRipple e element w)).now →
        (run steps (createClickRipple e element w)).doc.parentNode w.nextId = none)) ∧
    (∀ (parent : Nat) (r1 r2 : ℚ) (steps : List Step),
      PendingOrGone ⟨1000, w.now + 1000, .removeNode w.nextId⟩ w.nextId
        (run steps (createFloatingParticle parent r1 r2 w)) ∧
      (Punctual (run steps (createFloatingParticle parent r1 r2 w)) →
        w.now + 1000 < (run steps (createFloatingParticle parent r1 r2 w)).now →
        (run steps (createFloatingParticle parent r1 r2 w)).doc.parentNode w.nextId = none)) ∧
    (∀ (link : Nat), (w.doc.querySelectorFrom link selIcon).isSome →
      (createFloatingIcons link w).timers = w.timers ++ spawnTimers w.now link) ∧
    (∀ (t0 link i : Nat) (t : Timer) (r1 r2 : ℚ) (steps : List Step),
      t ∈ spawnTimers t0 link → w.timers.get? i = some t → w.now ≤ t.due →
      Punctual (run steps (fireTimer i r1 r2 w)) →
      t0 + 1100 < (run steps (fireTimer i r1 r2 w)).now →
      (run steps (fireTimer i r1 r2 w)).doc.parentNode w.nextId = none) ∧
    (∀ (n : Nat) (steps : List Step), n < w.nextId → w.doc.parentNode n = none →
      (run steps w).doc.parentNode n = none) := by
  have h0 := Fresh_cleanupCount w hfresh
  unfold cleanupCount at h0
  have hripple : ∀ (e : DomEvent) (element : Nat) (steps : List Step),
      PendingOrGone ⟨600, w.now + 600, .removeNode w.nextId⟩ w.nextId
        (run steps (createClickRipple e element w)) := by
    intro e element steps
    refine PendingOrGone_run _ _ rfl steps _ (Nat.lt_succ_self _) (Or.inl ?_)
    rw [createClickRipple_timers]
    simp
  have hparticle : ∀ (v : World) (parent : Nat) (r1 r2 : ℚ) (steps : List Step),
      PendingOrGone ⟨1000, v.now + 1000, .removeNode v.nextId⟩ v.nextId
        (run steps (createFloatingParticle parent r1 r2 v)) := by
    intro v parent r1 r2 steps
    refine PendingOrGone_run _ _ rfl steps _ (Nat.lt_succ_self _) (Or.inl ?_)
    rw [createFloatingParticle_timers]
    simp
  refine ⟨?_, ?_, fun s => step_timers s w, fun steps => Fresh_run steps w hfresh,
    fun n _ _ => removeIfAttached_parentNode n w, ?_, ?_, ?_, ?_, ?_, ?_, ?_,
    fun n steps hn h => (Stays_run n steps w).2 hn h⟩
  · intro parent r1 r2
    refine ⟨rfl, ?_, ?_⟩
    · unfold cleanupCount
      rw [createFloatingParticle_timers, List.filter_append, List.length_append, h0]
      simp
    · intro hl
      rw [createFloatingParticle_children parent r1 r2 w hl]
      simp
  · intro e element
    refine ⟨rfl, ?_, ?_⟩
    · unfold cleanupCount
      rw [createClickRipple_timers, List.filter_append, List.length_append, h0]
      simp
    · intro hl
      rw [createClickRipple_children e element w hl]
      simp
  · intro n r1 r2 h
    show removeIfAttached n w = w
    simp [removeIfAttached, h]
  · intro i t n r1 r2 hi ha hle
    unfold fireTimer
    simp only [hi, ha]
    constructor
    · rw [action_now]
      exact Nat.max_eq_right hle
    · exact removeIfAttached_parentNode n _
  · intro i t p r1 r2 hi ha hle
    unfold fireTimer
    simp only [hi, ha]
    show (createFloatingParticle p r1 r2 _).timers = _
    rw [createFloatingParticle_timers]
    simp [Nat.max_eq_right hle]
  · intro e element steps
    exact ⟨hripple e element steps,
      fun hp hl => gone_when_punctual _ _ _ (hripple e element steps) hp hl⟩
  · intro parent r1 r2 steps
    exact ⟨hparticle w parent r1 r2 steps,
      fun hp hl => gone_when_punctual _ _ _ (hparticle w parent r1 r2 steps) hp hl⟩
  · intro link hi
    rw [createFloatingIcons_eq, if_pos hi]
    rfl
  · intro t0 link i t r1 r2 steps ht hi hle hp hl
    have hdue : t.due ≤ t0 + 100 ∧ ∃ p, t.action = .spawnParticle p := by
      simp only [spawnTimers, List.mem_cons, List.mem_singleton, List.not_mem_nil,
        or_false] at ht
      rcases ht with h | h | h <;> subst h <;> exact ⟨by simp, _, rfl⟩
    obtain ⟨hd, p, ha⟩ := hdue
    have hfire : fireTimer i r1 r2 w = createFloatingParticle p r1 r2
        { w with timers := w.timers.eraseIdx i, now := max w.now t.due } := by
      unfold fireTimer
      simp only [hi, ha]
      rfl
    rw [hfire] at hp hl ⊢
    have hpg := hparticle { w with timers := w.timers.eraseIdx i, now := max w.now t.due }
      p r1 r2 steps
    have hm : max w.now t.due = t.due := Nat.max_eq_right hle
    refine gone_when_punctual _ _ _ hpg hp ?_
    calc max w.now t.due + 1000 = t.due + 1000 := by rw [hm]
      _ ≤ t0 + 1100 := by omega
      _ < _ := hl

/-- The sample page after setup has no pending timer; a click appends a ripple with
its one cleanup timer, and with that timer fired when due the ripple is gone at
clock value 700; one hover with its timers firing when due ends at clock value
1100 with no particle left and nothing pending. -/
theorem cleanup_when_punctual_witness :
    Fresh sampleReady ∧
    cleanupCount (createClickRipple (DomEvent.mouse 20 530) 5 sampleReady).timers
      sampleReady.nextId = 1 ∧
    Punctual (run clickSteps (createClickRipple (DomEvent.mouse 20 530) 5 sampleReady)) ∧
    sampleReady.now + 600 <
      (run clickSteps (createClickRipple (DomEvent.mouse 20 530) 5 sampleReady)).now ∧
    (run clickSteps (createClickRipple (DomEvent.mouse 20 530) 5 sampleReady)).doc.parentNode
      sampleReady.nextId = none ∧
    (run (hoverSteps.take 4) sampleReady).doc.countChildren 8 isParticle = 3 ∧
    (run hoverSteps sampleReady).doc.countChildren 8 isParticle = 0 ∧
    (run hoverSteps sampleReady).now = 1100 ∧
    (run hoverSteps sampleReady).timers = [] ∧
    Fresh (run hoverSteps sampleReady) := by
  have hf : Fresh sampleReady := by
    unfold Fresh
    decide!
  have hp : Punctual (run clickSteps
      (createClickRipple (DomEvent.mouse 20 530) 5 sampleReady)) := by
    unfold Punctual
    decide!
  have hl : sampleReady.now + 600 <
      (run clickSteps (createClickRipple (DomEvent.mouse 20 530) 5 sampleReady)).now := by
    decide!
  exact ⟨hf, ((cleanup_when_punctual sampleReady hf).2.1 (DomEvent.mouse 20 530) 5).2.1,
    hp, hl,
    ((cleanup_when_punctual sampleReady hf).2.2.2.2.2.2.2.2.1 (DomEvent.mouse 20 530) 5
      clickSteps).2 hp hl,
    by decide!, by decide!, by decide!, by decide!,
    (cleanup_when_punctual sampleReady hf).2.2.2.1 hoverSteps⟩

/-! ## Claim C10 -/

theorem lookup_setAttr (n v a : String) (l : List (String × String)) :
    (setAttr n v l).lookup a = if a = n then some v else l.lookup a := by
  induction l with
  | nil =>
    by_cases h : a = n
    · simp [setAttr, List.lookup, h]
    · have hb : (a == n) = false := by simpa using h
      simp [setAttr, List.lookup, h, hb]
  | cons p rest ih =>
    obtain ⟨k, x⟩ := p
    by_cases hk : k = n
    · subst hk
      by_cases h : a = k
      · simp [setAttr, List.lookup, h]
      · have hb : (a == k) = false := by simpa using h
        simp [setAttr, List.lookup, h, hb]
    · by_cases hak : a = k
      · subst hak
        have hne : ¬ a = n := hk
        simp [setAttr, List.lookup, hk, hne]
      · have hb : (a == k) = false := by simpa using hak
        simp [setAttr, List.lookup, hk, hb, ih]

theorem Document_getAttribute_eq (d : Document) (e : Nat) (a : String) :
    d.getAttribute e a = (d.dataOf e).bind (fun x => x.attrs.lookup a) := by
  unfold Document.getAttribute Document.dataOf
  cases d.locate e <;> rfl

theorem Document_dataOf_update (d : Document) (x e : Nat) (f : Data → Data) :
    (d.update x f).dataOf e =
      (d.dataOf e).map (fun a => if e = x then { f a with nid := a.nid } else a) := by
  have h := Document_locate_update d x e f
  unfold Document.dataOf
  cases h1 : d.locate e with
  | none =>
    rw [h1] at h
    cases h2 : (d.update x f).locate e with
    | none => rfl
    | some r => simp [h2] at h
  | some r =>
    rw [h1] at h
    have hn : r.2.data.nid = e := Node_locateList_nid e d.trees [] r h1
    cases h2 : (d.update x f).locate e with
    | none => simp [h2] at h
    | some r1 =>
      rw [h2] at h
      simp only [Option.map_some', Option.some.injEq] at h
      simp only [Option.map_some', Option.some.injEq]
      rw [h, Node_data_update, hn]

theorem labelled_of_not (x : Data) (h : needsLabel x = false) : labelled x = x := by
  simp [labelled, h]

theorem labelled_idem (x : Data) : labelled (labelled x) = labelled x := by
  by_cases h : needsLabel x = true
  · have h1 : labelled x =
        { x with attrs := setAttr "aria-label" ((x.attrs.lookup "title").getD "") x.attrs } := by
      simp [labelled, h]
    have h2 : needsLabel (labelled x) = false := by
      rw [h1]
      simp only [needsLabel, Bool.and_eq_true, Bool.not_eq_true'] at h
      simp only [needsLabel, lookup_setAttr]
      cases ht : x.attrs.lookup "title" with
      | none => simp [ht, truthy] at h
      | some t =>
        have h3 := h.1
        rw [ht] at h3
        simp [h3]
    exact labelled_of_not _ h2
  · have h1 : labelled x = x := by simp [labelled, h]
    rw [h1, h1]

theorem addAriaLabel_dataOf (l : Nat) (w : World) (e : Nat) :
    (addAriaLabel l w).doc.dataOf e =
      (w.doc.dataOf e).map (fun x => if e = l then labelled x else x) := by
  by_cases hel : e = l
  · subst hel
    unfold addAriaLabel
    rw [Document_getAttribute_eq, Document_getAttribute_eq]
    cases hd : w.doc.dataOf e with
    | none =>
      simp only [Option.none_bind, Option.map_none']
      exact hd
    | some x =>
      simp only [Option.some_bind, Option.map_some', if_true]
      cases ht : x.attrs.lookup "title" with
      | none =>
        simp only [hd]
        have : labelled x = x := by simp [labelled, needsLabel, ht, truthy]
        rw [this]
      | some t =>
        simp only
        by_cases hc : (truthy (some t) && !truthy (x.attrs.lookup "aria-label")) = true
        · simp only [hc, if_true, Document.setAttribute, Document_dataOf_update, hd,
            Option.map_some', if_true]
          have : needsLabel x = true := by simpa [needsLabel, ht] using hc
          simp [labelled, this, ht]
        · simp only [hc, hd]
          have : needsLabel x = false := by simpa [needsLabel, ht] using hc
          simp [labelled, this, hd]
  · have hdoc : (addAriaLabel l w).doc = w.doc ∨
        ∃ t, (addAriaLabel l w).doc = w.doc.setAttribute l "aria-label" t := by
      unfold addAriaLabel
      cases w.doc.getAttribute l "title" with
      | none => exact Or.inl rfl
      | some t =>
        simp only
        split
        · exact Or.inr ⟨t, rfl⟩
        · exact Or.inl rfl
    rcases hdoc with h | ⟨t, h⟩
    · rw [h]; simp [hel]
    · rw [h, Document.setAttribute, Document_dataOf_update]
      simp [hel]

theorem foldl_addAriaLabel_dataOf (ls : List Nat) :
    ∀ (w : World) (e : Nat),
      (ls.foldl (fun w l => addAriaLabel l w) w).doc.dataOf e =
        (w.doc.dataOf e).map (fun x => if e ∈ ls then labelled x else x) := by
  induction ls with
  | nil => intro w e; simp
  | cons l ls ih =>
    intro w e
    simp only [List.foldl_cons]
    rw [ih, addAriaLabel_dataOf]
    cases w.doc.dataOf e with
    | none => rfl
    | some x =>
      simp only [Option.map_some', Option.some.injEq, List.mem_cons]
      by_cases h1 : e = l <;> by_cases h2 : e ∈ ls <;> simp [h1, h2, labelled_idem]

theorem setupFocusManagement_eq (v : World) (f : Nat) (hv : v.footer = some f) :
    ∃ ls, setupFocusManagement v = .ok (registerAll v ls) := by
  simp only [setupFocusManagement, hv]
  refine ⟨((v.doc.querySelectorAllFrom f selFocusable).map
    (fun x => [⟨x, .focus, .focusOutline x⟩, ⟨x, .blur, .blurOutline x⟩])).flatten, ?_⟩
  rw [foldl_register (fun x => [⟨x, .focus, .focusOutline x⟩, ⟨x, .blur, .blurOutline x⟩])]
  intro w x
  simp [registerAll, addEventListener]

theorem setupKeyboardNavigation_eq (v : World) (f : Nat) (hv : v.footer = some f) :
    ∃ ls, setupKeyboardNavigation v = .ok (registerAll v ls) := by
  simp only [setupKeyboardNavigation, hv]
  refine ⟨((v.doc.querySelectorAllFrom f selLinks).map
    (fun x => [⟨x, .keydown, .keyActivate x⟩])).flatten, ?_⟩
  rw [foldl_register (fun x => [⟨x, .keydown, .keyActivate x⟩])]
  intro w x
  rfl

theorem setupAccessibility_doc (w : World) (f : Nat) (hf : w.footer = some f) :
    ∃ w1, setupAccessibility w = .ok w1 ∧
      w1.doc = ((w.doc.querySelectorAllFrom f selSocialLinks).foldl
        (fun w l => addAriaLabel l w) w).doc := by
  have hf1 : ((w.doc.querySelectorAllFrom f selSocialLinks).foldl
      (fun w l => addAriaLabel l w) w).footer = some f := by
    rw [foldl_footer _ (fun w x => addAriaLabel_footer x w)]
    exact hf
  obtain ⟨ls1, e1⟩ := setupFocusManagement_eq _ f hf1
  obtain ⟨ls2, e2⟩ := setupKeyboardNavigation_eq (registerAll _ ls1) f hf1
  refine ⟨registerAll (registerAll ((w.doc.querySelectorAllFrom f selSocialLinks).foldl
      (fun w l => addAriaLabel l w) w) ls1) ls2, ?_, rfl⟩
  simp only [setupAccessibility, addAriaLabels, hf, bind, Except.bind, e1, e2]

theorem labelled_lookup (x : Data) (a : String) :
    (labelled x).attrs.lookup a =
      if a = "aria-label" ∧ needsLabel x = true then x.attrs.lookup "title"
      else x.attrs.lookup a := by
  by_cases h : needsLabel x = true
  · have ht : truthy (x.attrs.lookup "title") = true := by
      simp only [needsLabel, Bool.and_eq_true] at h
      exact h.1
    cases hl : x.attrs.lookup "title" with
    | none => simp [hl, truthy] at ht
    | some t =>
      by_cases ha : a = "aria-label"
      · simp [labelled, h, lookup_setAttr, ha, hl]
      · simp [labelled, h, lookup_setAttr, ha]
  · have h0 : needsLabel x = false := by simpa using h
    simp [labelled, h0]

/-- C10 as stated fails: on the sample page the social link 12 has a title and an
`aria-label` that is present and empty, and `setupAccessibility` overwrites it
with the title; the social link 11 has a title attribute, which is empty, and gets
no `aria-label`. -/
theorem aria_label_overwritten :
    12 ∈ sampleFound.doc.querySelectorAllFrom 2 selSocialLinks ∧
    sampleFound.doc.getAttribute 12 "title" = some "Mail" ∧
    sampleFound.doc.getAttribute 12 "aria-label" = some "" ∧
    (setupAccessibility sampleFound).toOption.map
      (fun w => w.doc.getAttribute 12 "aria-label") = some (some "Mail") ∧
    11 ∈ sampleFound.doc.querySelectorAllFrom 2 selSocialLinks ∧
    sampleFound.doc.getAttribute 11 "title" = some "" ∧
    (setupAccessibility sampleFound).toOption.map
      (fun w => w.doc.getAttribute 11 "aria-label") = some none := by
  decide!

/-- C10, amended: `setupAccessibility` returns normally and, on the data of every
element, changes nothing but the `aria-label` attribute of the social links whose
`title` is non-empty and whose `aria-label` is absent or empty, which it sets to
the title.  So every attribute other than `aria-label` (the title among them) is
unchanged on every element, every attribute of an element that is not a social
link is unchanged, and the `aria-label` of a social link is the title when the
title is non-empty and the `aria-label` was absent or empty, and is unchanged
otherwise. -/
theorem aria_labels (w : World) (f : Nat) (hf : w.footer = some f) :
    ∃ w1, setupAccessibility w = .ok w1 ∧
      (∀ e, w1.doc.dataOf e = (w.doc.dataOf e).map
        (fun x => if e ∈ w.doc.querySelectorAllFrom f selSocialLinks then labelled x else x)) ∧
      (∀ e a, a ≠ "aria-label" → w1.doc.getAttribute e a = w.doc.getAttribute e a) ∧
      (∀ e, e ∉ w.doc.querySelectorAllFrom f selSocialLinks →
        ∀ a, w1.doc.getAttribute e a = w.doc.getAttribute e a) ∧
      (∀ e, e ∈ w.doc.querySelectorAllFrom f selSocialLinks →
        w1.doc.getAttribute e "aria-label" =
          if truthy (w.doc.getAttribute e "title") &&
              !truthy (w.doc.getAttribute e "aria-label")
          then w.doc.getAttribute e "title" else w.doc.getAttribute e "aria-label") := by
  obtain ⟨w1, h1, hdoc⟩ := setupAccessibility_doc w f hf
  have hdata : ∀ e, w1.doc.dataOf e = (w.doc.dataOf e).map
      (fun x => if e ∈ w.doc.querySelectorAllFrom f selSocialLinks then labelled x else x) := by
    intro e
    rw [hdoc, foldl_addAriaLabel_dataOf]
  refine ⟨w1, h1, hdata, ?_, ?_, ?_⟩
  · intro e a ha
    rw [Document_getAttribute_eq, Document_getAttribute_eq, hdata]
    cases w.doc.dataOf e with
    | none => rfl
    | some x =>
      simp only [Option.map_some', Option.some_bind]
      split
      · rw [labelled_lookup]; simp [ha]
      · rfl
  · intro e he a
    rw [Document_getAttribute_eq, Document_getAttribute_eq, hdata]
    cases w.doc.dataOf e with
    | none => rfl
    | some x => simp [he]
  · intro e he
    rw [Document_getAttribute_eq, Document_getAttribute_eq, Document_getAttribute_eq, hdata]
    cases w.doc.dataOf e with
    | none => simp [truthy]
    | some x =>
      simp only [Option.map_some', Option.some_bind, he, if_true]
      rw [labelled_lookup]
      simp [needsLabel]

/-- On the sample page the social link 8 has the title `GitHub` and no `aria-label`,
and gets it. -/
theorem aria_labels_witness :
    sampleFound.footer = some 2 ∧
    8 ∈ sampleFound.doc.querySelectorAllFrom 2 selSocialLinks ∧
    ∃ w1, setupAccessibility sampleFound = .ok w1 ∧
      w1.doc.getAttribute 8 "aria-label" =
        if truthy (sampleFound.doc.getAttribute 8 "title") &&
            !truthy (sampleFound.doc.getAttribute 8 "aria-label")
        then sampleFound.doc.getAttribute 8 "title"
        else sampleFound.doc.getAttribute 8 "aria-label" :=
  ⟨rfl, by decide!, by
    obtain ⟨w1, h1, _, _, _, h5⟩ := aria_labels sampleFound 2 rfl
    exact ⟨w1, h1, h5 8 (by decide!)⟩⟩

end Footer
